import Mathlib

/-!
Verification of the startup self-repair and data-integrity subsystem of the
STEP-BY-STEP repository, against its natural-language specification.

The Python sources are shallowly embedded: pure helpers become Lean
functions, stateful code becomes explicit state passing over a model of the
working directory (regular files, the parsed security manifest, the backup
directory), and fallible subprocess calls become an explicit behaviour datum.
File bytes are modelled as `String`; the SHA-256 digest function is an
abstract parameter `h : String → String` (the code only ever compares
digests for equality and against the literal sentinel `"missing"`).
-/

namespace StepByStep

/-! ## Dependency manager (`step_by_step/core/dependency_manager.py`) -/

namespace Dep

/-- Outcome information for a single dependency installation command
(`DependencyInstallOutcome` in `dependency_manager.py`). -/
structure DependencyInstallOutcome where
  description : String
  success : Bool
  stdout : String := ""
  stderr : String := ""
  offline_detected : Bool := false
  offline_hint : String := ""
  deriving Repr, DecidableEq

/-- The result of the `subprocess.run(command, capture_output=True, text=True,
check=True)` call inside `DependencyManager._run`: either a completed process
(zero exit), a `CalledProcessError` (non-zero exit, with its `stdout` and
`stderr` attributes, which may be `None`), or an `OSError` (process-spawn
failure) carrying its message. -/
inductive SubprocessResult where
  | ok (stdout stderr : String)
  | calledProcessError (stdout stderr : Option String)
  | osError (message : String)
  deriving Repr, DecidableEq

/-- `DependencyManager.OFFLINE_MARKERS`. -/
def OFFLINE_MARKERS : List String :=
  ["name or service not known",
   "temporary failure in name resolution",
   "failed to establish a new connection",
   "no such host is known",
   "nodename nor servname provided",
   "network is unreachable",
   "proxy connection failed"]

/-- Python's substring test `needle in hay`. -/
def containsSub (hay needle : String) : Bool :=
  decide (needle.data <:+: hay.data)

/-- Python's `str.lower()` (the texts involved are ASCII, where this agrees
with mapping each character to lower case). -/
def pyLower (s : String) : String :=
  ⟨s.data.map Char.toLower⟩

/-- Python's `str.strip()`: remove leading and trailing whitespace. -/
def pyStrip (s : String) : String :=
  ⟨((s.data.dropWhile Char.isWhitespace).reverse.dropWhile Char.isWhitespace).reverse⟩

/-- The hint returned for a matched offline marker. -/
def offlineHintText : String :=
  "Keine Netzwerkverbindung erreichbar – Installation wurde übersprungen."

/-- The hint returned for timed-out phrasing. -/
def timeoutHintText : String :=
  "Netzwerk-Zeitüberschreitung: Verbindung prüfen und später erneut versuchen."

/-- `DependencyManager._detect_offline_hint`. -/
def detect_offline_hint (message : String) : Option String :=
  let lowered := pyLower message
  if OFFLINE_MARKERS.any (fun marker => containsSub lowered marker) then
    some offlineHintText
  else if containsSub lowered "connection timed out" || containsSub lowered "timed out" then
    some timeoutHintText
  else
    none

/-- Python `error.stderr or ""`: `None` becomes the empty string. -/
def orEmpty (o : Option String) : String := o.getD ""

/-- Python `a or b` on strings: `b` when `a` is empty. -/
def orElse (a b : String) : String := if a = "" then b else a

/-- `DependencyManager._run`.  The behaviour of the spawned subprocess is the
explicit argument `result`; the function is total, which embeds the
"never raises" contract: every failure mode is converted into a
`DependencyInstallOutcome`. -/
def run (result : SubprocessResult) (description : String) : DependencyInstallOutcome :=
  match result with
  | .calledProcessError out err =>
      let stderr := pyStrip (orEmpty err)
      let stdout := pyStrip (orEmpty out)
      let hint := detect_offline_hint (orElse stderr stdout)
      { description := description
        success := false
        stdout := stdout
        stderr := stderr
        offline_detected := hint.isSome
        offline_hint := orEmpty hint }
  | .osError message =>
      let hint := detect_offline_hint message
      { description := description
        success := false
        stdout := ""
        stderr := message
        offline_detected := hint.isSome
        offline_hint := orEmpty hint }
  | .ok out err =>
      { description := description
        success := true
        stdout := pyStrip out
        stderr := pyStrip err }

/-- `DependencyManager.install_package`. -/
def install_package (result : SubprocessResult) (package : String)
    (description : Option String := none) : DependencyInstallOutcome :=
  run result (description.getD (package ++ " installieren"))

end Dep

/-! ## Startup pipeline control flow (`step_by_step/core/startup.py`)

`StartupManager.run_startup_checks` executes a fixed ordered list of named
steps, each wrapped by `StartupManager._run_step`, which catches any
exception, logs `"{label} fehlgeschlagen: {error}"` via `_log_progress`
(appending it to `report.messages`), and lets the loop continue.  A step is
embedded as a function `Report α → Except String (Report α)`: `.error e`
stands for a raised exception whose `str(error)` is `e`.  The payload type
`α` stands for the remaining report fields and the working-directory state a
step may touch; the embedding of the whole loop is a total function, which
is the "never propagates an exception out of the full pipeline run"
contract. -/

namespace Startup

/-- The fields of `StartupReport` relevant to step isolation: the message
list mutated by `_log_progress`, plus an abstract payload for everything
else a step may change. -/
structure Report (α : Type) where
  messages : List String
  payload : α
  deriving Repr, DecidableEq

/-- `StartupManager._log_progress` (its effect on `report.messages`). -/
def log_progress (message : String) (r : Report α) : Report α :=
  { r with messages := r.messages ++ [message] }

/-- `StartupManager._run_step`: run the callback, catching an exception at
the step boundary and logging it as an error message naming the step. -/
def run_step (label : String) (step : Report α → Except String (Report α))
    (r : Report α) : Report α :=
  match step r with
  | .ok r' => r'
  | .error e => log_progress (label ++ " fehlgeschlagen: " ++ e) r

/-- The step loop of `run_startup_checks`. -/
def runSteps (steps : List (String × (Report α → Except String (Report α))))
    (r : Report α) : Report α :=
  steps.foldl (fun acc s => run_step s.1 s.2 acc) r

/-- The fixed ordered step labels of `run_startup_checks`. -/
def STEP_LABELS : List String :=
  ["Strukturprüfung", "Virtuelle Umgebung prüfen", "Abhängigkeiten prüfen",
   "Datensicherheit prüfen", "Farbaudit ausführen", "Selbsttests ausführen",
   "Diagnose erfassen"]

/-- `StartupManager.run_startup_checks` (the step loop, with the step
bodies abstracted as behaviours paired positionally with the fixed
labels). -/
def run_startup_checks (behaviors : List (Report α → Except String (Report α)))
    (r : Report α) : Report α :=
  runSteps (STEP_LABELS.zip behaviors) r

end Startup

/-! ## Security manager (`step_by_step/core/security.py`)

The working directory is modelled explicitly: regular files are an
association list from path to bytes-and-mtime, the security manifest is the
parsed content of `data/security_manifest.json` (`none` standing for
absent, unreadable or empty — all three make `ensure_manifest` rebuild it),
and the backup directory is a flag (does it exist) plus its files.  The
SHA-256 digest is an abstract parameter `h`; `shutil.copy2` preserves the
source file's modification time, which the model reproduces.  All
timestamps drawn during one verification pass are bundled in a `Clock`. -/

namespace Security

/-- One manifest entry (`{"sha256": ..., "size": ..., "last_checked": ...}`);
absent keys are `none`. -/
structure Entry where
  sha256 : Option String := none
  size : Option Nat := none
  last_checked : String := ""
  deriving Repr, DecidableEq

/-- The parsed manifest file. -/
structure Manifest where
  files : List (String × Entry) := []
  created_at : String := ""
  updated_at : String := ""
  deriving Repr, DecidableEq

/-- A regular file: its bytes and its modification time. -/
structure FileRec where
  content : String
  mtime : Nat := 0
  deriving Repr, DecidableEq

/-- A file inside the backup directory. -/
structure BFile where
  name : String
  mtime : Nat
  content : String
  deriving Repr, DecidableEq

/-- The backup directory: whether it exists, and its files (in directory
iteration order, as `glob` enumerates them). -/
structure BDir where
  present : Bool := false
  files : List BFile := []
  deriving Repr, DecidableEq

/-- The working-directory state visible to `SecurityManager`. -/
structure St where
  files : List (String × FileRec) := []
  manifest : Option Manifest := none
  backups : BDir := {}
  deriving Repr, DecidableEq

/-- The wall clock during one verification pass: `isoformat()` timestamps,
the `%Y%m%d-%H%M%S` stamp used in backup names, and the raw modification
time the filesystem would assign to files created now. -/
structure Clock where
  iso : String
  stamp : String
  mtime : Nat
  deriving Repr, DecidableEq

/-- Python dict lookup on an insertion-ordered association list (keys are
unique, as in a parsed JSON object). -/
def lookupA : List (String × α) → String → Option α
  | [], _ => none
  | kv :: rest, k => if kv.1 == k then some kv.2 else lookupA rest k

/-- Python dict store: update in place when the key exists, else append. -/
def setA : List (String × α) → String → α → List (String × α)
  | [], k, v => [(k, v)]
  | kv :: rest, k, v =>
      if kv.1 == k then (k, v) :: rest else kv :: setA rest k v

/-- `SENSITIVE_FILES`: the fixed protected-file list. -/
def SENSITIVE_FILES : List String :=
  ["data/settings.json", "data/todo_items.json", "data/playlists.json",
   "data/archive.json", "data/archive.db", "data/release_checklist.json",
   "data/selftest_report.json", "data/color_audit.json", "data/usage_stats.json",
   "data/persistent_notes.txt", "Fortschritt.txt", "todo.txt"]

/-- `pathlib.Path(p).name`: the part after the last slash. -/
def baseName (p : String) : String :=
  ⟨((p.data.reverse.takeWhile (fun c => c ≠ Char.ofNat 47))).reverse⟩

/-- The fixed backup directory `data/backups`. -/
def backupDirPath : String := "data/backups"

/-- Whether a backup-directory file name matches the glob
`{original_name}.*.bak` (a `*` matches any characters, including dots). -/
def globMatch (original_name fname : String) : Bool :=
  List.isPrefixOf (original_name.data ++ [Char.ofNat 46]) fname.data &&
  List.isSuffixOf ".bak".data fname.data &&
  decide (original_name.data.length + 5 ≤ fname.data.length)

/-- `SecurityManager._hash_file` with the digest function abstract:
`"missing"` when the file does not exist, else the digest of its bytes. -/
def hash_file (h : String → String) (st : St) (path : String) : String :=
  match lookupA st.files path with
  | none => "missing"
  | some rec => h rec.content

/-- `SecurityManager._file_size` (`st_size`; `None` when absent). -/
def file_size (st : St) (path : String) : Option Nat :=
  (lookupA st.files path).map (fun rec => rec.content.utf8ByteSize)

/-- `SecurityManager._create_backup`: create the backup directory, form the
name `{name}.{timestamp}.bak`, and — when the source file exists — copy its
bytes there (`shutil.copy2` preserves the source's mtime and overwrites a
same-named backup).  Returns the backup path. -/
def create_backup (ck : Clock) (st : St) (path : String) : String × St :=
  let backup_name := baseName path ++ "." ++ ck.stamp ++ ".bak"
  let bdir : BDir := { present := true, files := st.backups.files }
  let bdir :=
    match lookupA st.files path with
    | some rec =>
        { bdir with files :=
            ⟨backup_name, rec.mtime, rec.content⟩
              :: bdir.files.filter (fun f => f.name ≠ backup_name) }
    | none => bdir
  (backupDirPath ++ "/" ++ backup_name, { st with backups := bdir })

/-- Stable insertion into an mtime-descending list (the earlier-listed file
goes first on ties, as Python's stable `sorted(..., reverse=True)`). -/
def insertByMtimeDesc (b : BFile) : List BFile → List BFile
  | [] => [b]
  | x :: xs => if x.mtime ≤ b.mtime then b :: x :: xs else x :: insertByMtimeDesc b xs

/-- Stable sort by modification time, newest first. -/
def sortByMtimeDesc : List BFile → List BFile
  | [] => []
  | x :: xs => insertByMtimeDesc x (sortByMtimeDesc xs)

/-- `SecurityManager._prune_old_backups`: keep the `keep` most recent glob
matches for the original name, unlink the rest, return the removed ones. -/
def prune_old_backups (st : St) (original_name : String) (keep : Nat := 5) :
    List BFile × St :=
  if st.backups.present = false then ([], st) else
  let candidates :=
    sortByMtimeDesc (st.backups.files.filter (fun f => globMatch original_name f.name))
  let removed := candidates.drop keep
  let removedNames := removed.map (fun f => f.name)
  (removed,
   { st with backups :=
      { st.backups with
        files := st.backups.files.filter (fun f => !(removedNames.contains f.name)) } })

/-- `SecurityManager._latest_backup`: the first maximal-mtime glob match
(Python's `max` keeps the earliest maximum). -/
def latest_backup (st : St) (original_name : String) : Option BFile :=
  if st.backups.present = false then none else
  match st.backups.files.filter (fun f => globMatch original_name f.name) with
  | [] => none
  | x :: xs => some (xs.foldl (fun best f => if f.mtime > best.mtime then f else best) x)

/-- A computed restore point (`{file, status, backup, message}`). -/
structure RestorePoint where
  file : String
  status : String
  backup : Option String := none
  message : Option String := none
  deriving Repr, DecidableEq

/-- `SecuritySummary`. -/
structure SecuritySummary where
  status : String := "unknown"
  verified : Nat := 0
  issues : List String := []
  backups : List String := []
  size_alerts : List String := []
  pruned_backups : List String := []
  restore_points : List RestorePoint := []
  restore_issues : List String := []
  updated_manifest : Bool := false
  timestamp : String := ""
  deriving Repr, DecidableEq

/-- The loop body of `SecurityManager._collect_restore_points` for one
manifest entry. -/
def restore_point_for (h : String → String) (st : St) (rel_path : String)
    (entry : Entry) : RestorePoint :=
  match latest_backup st (baseName rel_path) with
  | none =>
      { file := rel_path, status := "missing", message := some "Kein Backup gefunden" }
  | some latest =>
      if entry.sha256 = none ∨ entry.sha256 = some "missing" then
        { file := rel_path, status := "unknown",
          backup := some (backupDirPath ++ "/" ++ latest.name),
          message := some "Manifest enthält keine Prüfsumme" }
      else if some (h latest.content) = entry.sha256 then
        { file := rel_path, status := "ok",
          backup := some (backupDirPath ++ "/" ++ latest.name) }
      else
        { file := rel_path, status := "mismatch",
          backup := some (backupDirPath ++ "/" ++ latest.name),
          message := some (rel_path
            ++ ": Backup stimmt nicht mit der aktuellen Prüfsumme überein ("
            ++ latest.name ++ ")") }

/-- `SecurityManager._collect_restore_points`. -/
def collect_restore_points (h : String → String) (st : St)
    (files_section : List (String × Entry)) : List RestorePoint :=
  files_section.map (fun kv => restore_point_for h st kv.1 kv.2)

/-- The state threaded through the verification loop: the in-memory
`files` section, the summary under construction, and the directory
state. -/
structure PassSt where
  sec : List (String × Entry)
  summary : SecuritySummary
  st : St
  deriving Repr, DecidableEq

/-- One iteration of the `for path in SENSITIVE_FILES` loop of
`SecurityManager.verify_files`. -/
def processFile (h : String → String) (ck : Clock) (rel_path : String)
    (p : PassSt) : PassSt :=
  let entry := (lookupA p.sec rel_path).getD {}
  let checksum := hash_file h p.st rel_path
  let size := file_size p.st rel_path
  let summary := { p.summary with verified := p.summary.verified + 1 }
  if checksum = "missing" then
    let summary := { summary with
      issues := summary.issues ++ [rel_path ++ ": Datei fehlt – bitte prüfen"],
      status := "attention",
      updated_manifest := true }
    let entry := { entry with
      sha256 := some "missing", size := none, last_checked := summary.timestamp }
    { sec := setA p.sec rel_path entry, summary := summary, st := p.st }
  else
    match entry.sha256 with
    | none =>
        let entry := { entry with
          sha256 := some checksum, size := size, last_checked := summary.timestamp }
        let summary := { summary with updated_manifest := true }
        { sec := setA p.sec rel_path entry, summary := summary, st := p.st }
    | some expected =>
        if checksum ≠ expected then
          let cb := create_backup ck p.st rel_path
          let backup_file := cb.1
          let pr := prune_old_backups cb.2 (baseName rel_path) 5
          let pruned := pr.1
          let st := pr.2
          let message := "Checksum-Abweichung erkannt – Datei gesichert unter " ++ backup_file
          let summary := { summary with
            issues := summary.issues ++ [rel_path ++ ": " ++ message],
            backups := summary.backups ++ [backup_file],
            pruned_backups := summary.pruned_backups
              ++ pruned.map (fun f => backupDirPath ++ "/" ++ f.name),
            updated_manifest := true,
            status := "attention" }
          let entry := { entry with
            sha256 := some checksum, size := size, last_checked := summary.timestamp }
          { sec := setA p.sec rel_path entry, summary := summary, st := st }
        else
          let sizeAlert :=
            match entry.size, size with
            | some prev, some cur =>
                if prev ≠ cur then
                  some (rel_path ++ ": Dateigröße von " ++ toString prev
                    ++ " auf " ++ toString cur ++ " Byte geändert")
                else none
            | _, _ => none
          let summary :=
            match sizeAlert with
            | some alert =>
                { summary with
                  issues := summary.issues ++ [alert],
                  size_alerts := summary.size_alerts ++ [alert],
                  status := "attention" }
            | none => summary
          let entry := { entry with size := size, last_checked := summary.timestamp }
          { sec := setA p.sec rel_path entry, summary := summary, st := p.st }

/-- `SecurityManager._initial_manifest`. -/
def initial_manifest (h : String → String) (ck : Clock) (st : St) : Manifest :=
  { files := SENSITIVE_FILES.map (fun p =>
      (p, { sha256 := some (hash_file h st p), size := file_size st p,
            last_checked := ck.iso })),
    created_at := ck.iso, updated_at := ck.iso }

/-- `SecurityManager._write_manifest`: stamp `updated_at` and persist. -/
def write_manifest (ck : Clock) (m : Manifest) (st : St) : Manifest × St :=
  let m := { m with updated_at := ck.iso }
  (m, { st with manifest := some m })

/-- `SecurityManager.ensure_manifest`: reuse a loadable manifest, else
build and persist the initial one. -/
def ensure_manifest (h : String → String) (ck : Clock) (st : St) : Manifest × St :=
  match st.manifest with
  | some m => (m, st)
  | none => write_manifest ck (initial_manifest h ck st) st

/-- The `for path in SENSITIVE_FILES` loop of `verify_files`, starting from
the freshly constructed `SecuritySummary(status="ok")` with the pass
timestamp and the loaded manifest's `files` section. -/
def verifyLoop (h : String → String) (ck : Clock) (m : Manifest) (st : St) : PassSt :=
  SENSITIVE_FILES.foldl (fun acc path => processFile h ck path acc)
    { sec := m.files, summary := { status := "ok", timestamp := ck.iso }, st := st }

/-- The tail of `verify_files` after the loop: compute the restore points,
derive `restore_issues` from the non-ok ones with a truthy message, and
finalise the status flags. -/
def finalizeSummary (h : String → String) (st : St) (p : PassSt) : SecuritySummary :=
  let rps := collect_restore_points h st p.sec
  let restore_issues :=
    (rps.filter (fun rp => rp.status ≠ "ok" ∧ rp.message.getD "" ≠ "")).map
      (fun rp => rp.message.getD "")
  let summary := { p.summary with restore_points := rps, restore_issues := restore_issues }
  let summary :=
    match summary.issues with
    | [] => summary
    | _ => { summary with status := "attention" }
  match summary.restore_issues with
  | _ :: _ => { summary with status := "attention" }
  | [] =>
      if summary.status == "attention" then summary
      else { summary with status := "ok" }

/-- The tail of `verify_files` applied to the loop result `p`: persist the
manifest when the dirty flag is set, then finalise the summary. -/
def verifyFinish (h : String → String) (ck : Clock) (m : Manifest) (p : PassSt) :
    SecuritySummary × List (String × Entry) × St :=
  let st2 :=
    if p.summary.updated_manifest then
      (write_manifest ck { m with files := p.sec } p.st).2
    else p.st
  (finalizeSummary h st2 p, p.sec, st2)

/-- `SecurityManager.verify_files`.  Returns the summary, the in-memory
`files` section after the loop, and the final directory state. -/
def verify_files (h : String → String) (ck : Clock) (st : St) :
    SecuritySummary × List (String × Entry) × St :=
  let ms := ensure_manifest h ck st
  verifyFinish h ck ms.1 (verifyLoop h ck ms.1 ms.2)

/-- Whether processing `rel_path` takes one of the three manifest-dirtying
branches of the verification loop (file missing, first observation, digest
mismatch), computed from the pre-pass state.  The digest-match branch —
including its unconditional `last_checked` stamp and its size refresh —
does not set the dirty flag. -/
def entryDirty (h : String → String) (st : St) (sec : List (String × Entry))
    (rel_path : String) : Bool :=
  let checksum := hash_file h st rel_path
  if checksum = "missing" then true
  else
    match ((lookupA sec rel_path).getD {}).sha256 with
    | none => true
    | some expected => if checksum ≠ expected then true else false

end Security

/-! ## Settings validation (`core/validators.py`, `core/defaults.py`,
`core/themes.py`)

JSON values are embedded as a mutual inductive family with exact rational
numbers; `json.loads` / `json.dumps` and Python's `float(str)` / `int(str)`
parsers are abstract parameters of the functions that use them. -/

namespace Val

mutual
/-- A JSON value (`json.loads` result); objects keep their key order. -/
inductive JVal where
  | jnull
  | jbool (b : Bool)
  | jnum (q : ℚ)
  | jstr (s : String)
  | jarr (xs : JList)
  | jobj (kvs : JObj)
/-- A JSON array. -/
inductive JList where
  | nil
  | cons (v : JVal) (rest : JList)
/-- A JSON object: ordered key/value pairs (keys unique, as in a Python
dict). -/
inductive JObj where
  | nil
  | cons (k : String) (v : JVal) (rest : JObj)
end

/-- Build a JSON array from a list. -/
def jlOf : List JVal → JList
  | [] => .nil
  | v :: rest => .cons v (jlOf rest)

/-- Build a JSON object from a pair list. -/
def joOf : List (String × JVal) → JObj
  | [] => .nil
  | kv :: rest => .cons kv.1 kv.2 (joOf rest)

/-- Dict lookup on a JSON object (`data.get(k)`). -/
def joLookup : JObj → String → Option JVal
  | .nil, _ => none
  | .cons k v rest, key => if k == key then some v else joLookup rest key

/-- Dict store on a JSON object: update in place when the key exists, else
append (`data[k] = v`). -/
def joSet : JObj → String → JVal → JObj
  | .nil, key, v => .cons key v .nil
  | .cons k v0 rest, key, v =>
      if k == key then .cons key v rest else .cons k v0 (joSet rest key v)

/-- Number of keys of a JSON object. -/
def joLen : JObj → Nat
  | .nil => 0
  | .cons _ _ rest => joLen rest + 1

/-- Length of a JSON array. -/
def jlLen : JList → Nat
  | .nil => 0
  | .cons _ rest => jlLen rest + 1

mutual
/-- Python `==` on JSON values: `True == 1`, `1 == 1.0`, arrays compare
pointwise, objects compare per key ignoring order (with unique keys, as
Python dicts have, equal size plus a value-checked one-sided key inclusion
is dict equality). -/
def pyEq : JVal → JVal → Bool
  | .jnull, .jnull => true
  | .jbool x, .jbool y => x == y
  | .jbool x, .jnum q => (if x then (1 : ℚ) else 0) == q
  | .jnum q, .jbool y => q == (if y then (1 : ℚ) else 0)
  | .jnum x, .jnum y => x == y
  | .jstr x, .jstr y => x == y
  | .jarr xs, .jarr ys => pyEqList xs ys
  | .jobj xs, .jobj ys => joLen xs == joLen ys && pyObjLe xs ys
  | _, _ => false
/-- Pointwise Python `==` on JSON arrays. -/
def pyEqList : JList → JList → Bool
  | .nil, .nil => true
  | .cons x xs, .cons y ys => pyEq x y && pyEqList xs ys
  | _, _ => false
/-- Every key of the first object is present in the second with a Python
`==` value. -/
def pyObjLe : JObj → JObj → Bool
  | .nil, _ => true
  | .cons k v rest, ys =>
      (match joLookup ys k with
       | some v2 => pyEq v v2
       | none => false) && pyObjLe rest ys
end

/-- `THEME_ORDER` from `core/themes.py`. -/
def THEME_ORDER : List String := ["accessible", "high_contrast", "light", "dark"]

/-- `DEFAULT_SETTINGS` from `core/defaults.py`, in dict order. -/
def DEFAULT_SETTINGS : JObj :=
  joOf
    [("font_scale", .jnum (mkRat 6 5)),
     ("theme", .jstr "light"),
     ("autosave_interval_minutes", .jnum 10),
     ("accessibility_mode", .jbool true),
     ("shortcuts_enabled", .jbool true),
     ("contrast_theme", .jstr "accessible"),
     ("color_mode", .jstr "accessible"),
     ("audio_volume", .jnum (mkRat 4 5))]

/-- Rational multiplication written through `mkRat`, so that concrete
instances evaluate by kernel reduction. -/
def ratMul (a b : ℚ) : ℚ :=
  mkRat (a.num * b.num) (a.den * b.den)

/-- Rational subtraction written through `mkRat`. -/
def ratSub (a b : ℚ) : ℚ :=
  mkRat (a.num * b.den - b.num * a.den) (a.den * b.den)

/-- Python `int(float)`: truncation toward zero. -/
def ratTrunc (q : ℚ) : Int :=
  q.num.tdiv q.den

/-- Python `round(x)` to an integer: round half to even. -/
def roundHalfEven (q : ℚ) : Int :=
  let f := q.floor
  let r := ratSub q (mkRat f 1)
  if r < mkRat 1 2 then f
  else if mkRat 1 2 < r then f + 1
  else if f % 2 = 0 then f else f + 1

/-- Python `round(x, 2)` (numbers modelled as exact rationals). -/
def round2 (q : ℚ) : ℚ :=
  mkRat (roundHalfEven (ratMul q (mkRat 100 1))) 100

/-- Python `float(raw)` on a JSON value, `none` for `TypeError`/`ValueError`
(`fl` is the `float(str)` parser). -/
def pyFloat (fl : String → Option ℚ) : JVal → Option ℚ
  | .jbool b => some (if b then 1 else 0)
  | .jnum q => some q
  | .jstr s => fl s
  | _ => none

/-- Python `int(raw)` on a JSON value, `none` for `TypeError`/`ValueError`
(`il` is the `int(str)` parser). -/
def pyInt (il : String → Option Int) : JVal → Option Int
  | .jbool b => some (if b then 1 else 0)
  | .jnum q => some (ratTrunc q)
  | .jstr s => il s
  | _ => none

/-- `SettingsValidator._normalise_font_scale` (`min_scale = 0.8`,
`max_scale = 1.6`, fallback `DEFAULT_SETTINGS["font_scale"] = 1.2`). -/
def normalise_font_scale (fl : String → Option ℚ) (raw : Option JVal) :
    ℚ × List String :=
  let fallback : ℚ := mkRat 6 5
  let parsed := raw.bind (pyFloat fl)
  let value := parsed.getD fallback
  let msgs : List String :=
    match parsed with
    | none => ["Schriftgröße war ungültig und wurde auf 120 % gesetzt."]
    | some _ => []
  let clamped := max (mkRat 4 5) (min (mkRat 8 5) value)
  let msgs :=
    if mkRat 1 1000000000 < |ratSub clamped value| then
      msgs ++ ["Schriftgröße automatisch in den empfohlenen Bereich (80–160 %) gebracht."]
    else msgs
  (round2 clamped, msgs)

/-- `SettingsValidator._normalise_autosave` (fallback 10, clamped to
`[1, 120]`). -/
def normalise_autosave (il : String → Option Int) (raw : Option JVal) :
    Int × List String :=
  let fallback : Int := 10
  let parsed := raw.bind (pyInt il)
  let value := parsed.getD fallback
  let msgs : List String :=
    match parsed with
    | none => ["Autospeicherintervall war ungültig und wurde auf 10 Minuten gesetzt."]
    | some _ => []
  let clamped := max 1 (min 120 value)
  let msgs :=
    if clamped ≠ value then msgs ++ ["Autospeicherintervall auf 1–120 Minuten begrenzt."]
    else msgs
  (clamped, msgs)

/-- `SettingsValidator._normalise_volume` (fallback 0.8, clamped to
`[0, 1]`). -/
def normalise_volume (fl : String → Option ℚ) (raw : Option JVal) :
    ℚ × List String :=
  let fallback : ℚ := mkRat 4 5
  let parsed := raw.bind (pyFloat fl)
  let value := parsed.getD fallback
  let msgs : List String :=
    match parsed with
    | none => ["Audio-Lautstärke war ungültig und wurde auf 80 % gesetzt."]
    | some _ => []
  let clamped := max 0 (min 1 value)
  let msgs :=
    if mkRat 1 1000000000 < |ratSub clamped value| then
      msgs ++ ["Audio-Lautstärke auf den Bereich 0–100 % eingegrenzt."]
    else msgs
  (round2 clamped, msgs)

/-- `SettingsValidator._normalise_bool` (both callers default to `True`). -/
def normalise_bool (field : String) (raw : Option JVal) : Bool × Option String :=
  let dflt := true
  let value :=
    match raw with
    | some (.jbool b) => b
    | some (.jstr s) =>
        ["1", "true", "ja", "yes", "an", "on"].contains (Dep.pyLower (Dep.pyStrip s))
    | some (.jnum q) => decide (q ≠ 0)
    | _ => dflt
  let changed :=
    match raw with
    | some v => !(pyEq (.jbool value) v)
    | none => true
  if changed then
    let label := if field = "accessibility_mode" then "Barrierefreiheit" else "Tastenkürzel"
    (value,
     some (label ++ " wurde auf " ++ (if value then "aktiv" else "inaktiv") ++ " gesetzt."))
  else (value, none)

/-- `SettingsValidator._normalise_theme` (defaults: `theme ↦ "light"`, the
two others `↦ "accessible"`). -/
def normalise_theme (field : String) (raw : Option JVal) : String × Option String :=
  let dflt := if field = "theme" then "light" else "accessible"
  let candidate :=
    match raw with
    | some (.jstr s) => Dep.pyLower (Dep.pyStrip s)
    | _ => ""
  let value := if THEME_ORDER.contains candidate then candidate else dflt
  let changed :=
    match raw with
    | some v => !(pyEq (.jstr value) v)
    | none => true
  if changed then
    let label :=
      if field = "theme" then "Standard-Design"
      else if field = "contrast_theme" then "Kontrast-Design"
      else if field = "color_mode" then "Farbschema"
      else field
    (value, some (label ++ " wurde auf '" ++ value ++ "' gesetzt."))
  else (value, none)

/-- The `for key, default in self.defaults.items()` loop of `normalise`:
fill missing keys with their defaults, appending in dict order. -/
def fillDefaults : JObj → JObj → List String → JObj × List String
  | .nil, data, msgs => (data, msgs)
  | .cons k v rest, data, msgs =>
      if (joLookup data k).isSome then fillDefaults rest data msgs
      else
        fillDefaults rest (joSet data k v)
          (msgs ++ ["'" ++ k ++ "' ergänzt (Standardwert übernommen)."])

/-- `SettingsValidator.normalise`: fill missing defaults, then normalise
the scale, autosave, volume, boolean and theme fields in place, collecting
the adjustment messages. -/
def normalise (fl : String → Option ℚ) (il : String → Option Int)
    (raw : JObj) : JObj × List String :=
  let filled := fillDefaults DEFAULT_SETTINGS raw []
  let fres := normalise_font_scale fl (joLookup filled.1 "font_scale")
  let d1 := joSet filled.1 "font_scale" (.jnum fres.1)
  let m1 := filled.2 ++ fres.2
  let ares := normalise_autosave il (joLookup d1 "autosave_interval_minutes")
  let d2 := joSet d1 "autosave_interval_minutes" (.jnum (mkRat ares.1 1))
  let m2 := m1 ++ ares.2
  let vres := normalise_volume fl (joLookup d2 "audio_volume")
  let d3 := joSet d2 "audio_volume" (.jnum vres.1)
  let m3 := m2 ++ vres.2
  let b1 := normalise_bool "accessibility_mode" (joLookup d3 "accessibility_mode")
  let d4 := joSet d3 "accessibility_mode" (.jbool b1.1)
  let m4 := m3 ++ (match b1.2 with | some n => [n] | none => [])
  let b2 := normalise_bool "shortcuts_enabled" (joLookup d4 "shortcuts_enabled")
  let d5 := joSet d4 "shortcuts_enabled" (.jbool b2.1)
  let m5 := m4 ++ (match b2.2 with | some n => [n] | none => [])
  let t1 := normalise_theme "theme" (joLookup d5 "theme")
  let d6 := joSet d5 "theme" (.jstr t1.1)
  let m6 := m5 ++ (match t1.2 with | some n => [n] | none => [])
  let t2 := normalise_theme "contrast_theme" (joLookup d6 "contrast_theme")
  let d7 := joSet d6 "contrast_theme" (.jstr t2.1)
  let m7 := m6 ++ (match t2.2 with | some n => [n] | none => [])
  let t3 := normalise_theme "color_mode" (joLookup d7 "color_mode")
  let d8 := joSet d7 "color_mode" (.jstr t3.1)
  let m8 := m7 ++ (match t3.2 with | some n => [n] | none => [])
  (d8, m8)

end Val



/-! ## Startup structure repair (`core/resources.py`,
`StartupManager.ensure_structure`, `StartupManager._ensure_settings_defaults`)

The working directory is a folder list plus a path-to-text map; `json.loads`
composed with Python's `dict(...)` conversion is the abstract parameter
`loads`, `json.dumps(..., indent=2, ensure_ascii=False)` is the abstract
parameter `dumps`. -/

namespace Struct

/-- A working directory: the created folders and the files on disk (content
plus modification time, shared with the security model).  `mt` parameters
below are the modification time a write stamps. -/
structure FS where
  folders : List String
  files : List (String × Security.FileRec)
  deriving Repr, DecidableEq

/-- `REQUIRED_FOLDERS` from `core/resources.py`. -/
def REQUIRED_FOLDERS : List String :=
  ["data", "logs", "data/exports", "data/converted_audio", "data/backups"]

/-- `ARCHIVE_DB_PATH` from `core/resources.py`. -/
def ARCHIVE_DB_PATH : String := "data/archive.db"

/-- The `data/settings.json` path. -/
def SETTINGS_PATH : String := "data/settings.json"

/-- Payload of `_selftest_template`. -/
def selftestPayload : Val.JObj :=
  Val.joOf
    [("last_run", .jstr ""), ("all_passed", .jbool false),
     ("self_tests", .jarr .nil), ("created_virtualenv", .jbool false),
     ("installed_dependencies", .jbool false), ("messages", .jarr .nil),
     ("repaired_paths", .jarr .nil), ("dependency_messages", .jarr .nil),
     ("security_summary", .jobj (Val.joOf
       [("status", .jstr "unknown"), ("verified", .jnum 0),
        ("issues", .jarr .nil), ("backups", .jarr .nil),
        ("size_alerts", .jarr .nil), ("pruned_backups", .jarr .nil),
        ("restore_points", .jarr .nil), ("restore_issues", .jarr .nil),
        ("updated_manifest", .jbool false), ("timestamp", .jstr "")])),
     ("color_audit", .jobj (Val.joOf
       [("generated_at", .jstr ""), ("overall_status", .jstr "unknown"),
        ("worst_ratio", .jnum 0), ("themes", .jarr .nil),
        ("issues", .jarr .nil), ("recommendations", .jarr .nil)])),
     ("diagnostics", .jobj (Val.joOf
       [("generated_at", .jstr ""), ("python", .jobj .nil),
        ("virtualenv", .jobj .nil), ("paths", .jarr .nil),
        ("packages", .jarr .nil),
        ("summary", .jobj (Val.joOf
          [("status", .jstr "unknown"), ("issues", .jarr .nil),
           ("recommendations", .jarr .nil)])),
        ("startup", .jobj .nil)])),
     ("diagnostics_messages", .jarr .nil),
     ("diagnostics_report_path", .jstr ""),
     ("diagnostics_report_html_path", .jstr "")]

/-- Payload of `_release_checklist_template`. -/
def releaseChecklistPayload : Val.JObj :=
  Val.joOf
    [("items", .jarr (Val.jlOf
       [.jobj (Val.joOf
          [("title", .jstr "Automatischer Start inklusive Selbsttests"),
           ("done", .jbool true),
           ("details", .jstr "Launcher führt Abhängigkeitsprüfung und Reparaturen durch.")]),
        .jobj (Val.joOf
          [("title", .jstr "Audioformat-Prüfung und Normalisierung"),
           ("done", .jbool true),
           ("details", .jstr "Playlist-Bereich bietet Prüfen und Konvertieren auf WAV-Basis.")]),
        .jobj (Val.joOf
          [("title", .jstr "Archiv-Export als CSV und JSON"),
           ("done", .jbool true),
           ("details", .jstr "Schnelllinks exportieren Datenbankeinträge in data/exports/.")]),
        .jobj (Val.joOf
          [("title", .jstr "Startprotokoll durchsuchbar in der Oberfläche"),
           ("done", .jbool true),
           ("details", .jstr "Eigenes Panel filtert logs/startup.log nach Begriffen.")]),
        .jobj (Val.joOf
          [("title", .jstr "Abschließender Release-Review"),
           ("done", .jbool true),
           ("details", .jstr "End-to-End-Prüfung dokumentiert, Release freigegeben.")])])),
     ("updated_at", .jstr "")]

/-- Payload of `_color_audit_template`. -/
def colorAuditPayload : Val.JObj :=
  Val.joOf
    [("generated_at", .jstr ""), ("overall_status", .jstr "unknown"),
     ("worst_ratio", .jnum 0), ("themes", .jarr .nil),
     ("issues", .jarr .nil), ("recommendations", .jarr .nil)]

/-- Payload of `_diagnostics_template`. -/
def diagnosticsPayload : Val.JObj :=
  Val.joOf
    [("generated_at", .jstr ""), ("python", .jobj .nil),
     ("virtualenv", .jobj .nil), ("paths", .jarr .nil),
     ("packages", .jarr .nil),
     ("summary", .jobj (Val.joOf
       [("status", .jstr "unknown"), ("issues", .jarr .nil),
        ("recommendations", .jarr .nil)])),
     ("startup", .jobj .nil)]

/-- `FILE_TEMPLATES` from `core/resources.py`, in dict order, with every
template text produced by the `dumps` parameter (`_dump`). -/
def FILE_TEMPLATES (dumps : Val.JObj → String) : List (String × String) :=
  [("data/settings.json", dumps Val.DEFAULT_SETTINGS),
   ("data/todo_items.json", dumps (Val.joOf [("items", .jarr .nil)])),
   ("data/playlists.json", dumps (Val.joOf [("tracks", .jarr .nil)])),
   ("data/archive.json", dumps (Val.joOf [("entries", .jarr .nil)])),
   ("data/persistent_notes.txt", ""),
   ("data/usage_stats.json", dumps .nil),
   ("data/selftest_report.json", dumps selftestPayload),
   ("data/release_checklist.json", dumps releaseChecklistPayload),
   ("data/color_audit.json", dumps colorAuditPayload),
   ("data/diagnostics_report.json", dumps diagnosticsPayload),
   ("data/security_manifest.json", dumps (Val.joOf
     [("files", .jobj .nil), ("created_at", .jstr ""), ("updated_at", .jstr "")]))]

/-- Outcome of `dict(json.loads(text))` on a settings file's text:
`decodeError` for a `json.JSONDecodeError` raised by `loads`;
`obj data isDict` when the composite yields a dict (`isDict` records
whether the loaded value itself was a dict rather than merely
dict-convertible, which the later `sanitised != content` comparison needs);
`typeError` when `dict(...)` raises on a non-dict-convertible value. -/
inductive LoadResult where
  | decodeError
  | obj (data : Val.JObj) (isDict : Bool)
  | typeError

/-- `folder.mkdir(parents=True, exist_ok=True)`. -/
def addFolder (folders : List String) (f : String) : List String :=
  if folders.contains f then folders else folders ++ [f]

/-- `StartupManager._ensure_settings_defaults` on the settings file's text:
returns the new text to write (or `none` to leave the file alone) and the
updated `repaired_paths`, or raises (`dict(...)` on a non-convertible
value). -/
def ensure_settings_defaults (loads : String → LoadResult)
    (dumps : Val.JObj → String) (fl : String → Option ℚ)
    (il : String → Option Int) (text : String) (repaired : List String) :
    Except Unit (Option String × List String) :=
  match loads text with
  | .decodeError =>
      let sanitised := (Val.normalise fl il .nil).1
      .ok (some (dumps sanitised),
        if repaired.contains SETTINGS_PATH then repaired
        else repaired ++ [SETTINGS_PATH])
  | .obj data isDict =>
      let sanitised := (Val.normalise fl il data).1
      if isDict && Val.pyEq (.jobj sanitised) (.jobj data) then .ok (none, repaired)
      else
        .ok (some (dumps sanitised),
          if repaired.contains SETTINGS_PATH then repaired
          else repaired ++ [SETTINGS_PATH])
  | .typeError => .error ()

/-- The `for path, template in iter_required_files()` loop of
`ensure_structure`: create a missing file from its template and record it
as repaired, then run the settings check for `settings.json`. -/
def ensureFiles (loads : String → LoadResult) (dumps : Val.JObj → String)
    (fl : String → Option ℚ) (il : String → Option Int) (mt : Nat) :
    List (String × String) → FS → List String →
      Except Unit (FS × List String)
  | [], fs, repaired => .ok (fs, repaired)
  | (path, template) :: rest, fs, repaired =>
      let present := (Security.lookupA fs.files path).isSome
      let fs1 :=
        if present then fs
        else { fs with files := Security.setA fs.files path ⟨template, mt⟩ }
      let rep1 := if present then repaired else repaired ++ [path]
      if Security.baseName path = "settings.json" then
        match ensure_settings_defaults loads dumps fl il
            (((Security.lookupA fs1.files path).map
              (fun rec => rec.content)).getD "") rep1 with
        | .error e => .error e
        | .ok (none, rep2) => ensureFiles loads dumps fl il mt rest fs1 rep2
        | .ok (some newText, rep2) =>
            ensureFiles loads dumps fl il mt rest
              { fs1 with files := Security.setA fs1.files path ⟨newText, mt⟩ } rep2
      else ensureFiles loads dumps fl il mt rest fs1 rep1

/-- `StartupManager._ensure_archive_database` (`dbInit` is the
`DatabaseModule` bootstrap: `none` when it raises — logged and swallowed —
else the created database file's content). -/
def ensure_archive_database (dbInit : Option String) (mt : Nat) (fs : FS)
    (repaired : List String) : FS × List String :=
  if (Security.lookupA fs.files ARCHIVE_DB_PATH).isSome then (fs, repaired)
  else
    match dbInit with
    | none => (fs, repaired)
    | some dbContent =>
        ({ fs with files := Security.setA fs.files ARCHIVE_DB_PATH ⟨dbContent, mt⟩ },
          repaired ++ [ARCHIVE_DB_PATH])

/-- `StartupManager.ensure_structure`: create the required folders, repair
the required files (with the settings check), then
`_ensure_archive_database`. -/
def ensure_structure (loads : String → LoadResult) (dumps : Val.JObj → String)
    (fl : String → Option ℚ) (il : String → Option Int)
    (dbInit : Option String) (mt : Nat) (fs : FS) (repaired : List String) :
    Except Unit (FS × List String) :=
  let fs0 := { fs with folders := REQUIRED_FOLDERS.foldl addFolder fs.folders }
  match ensureFiles loads dumps fl il mt (FILE_TEMPLATES dumps) fs0 repaired with
  | .error e => .error e
  | .ok (fs1, rep) => .ok (ensure_archive_database dbInit mt fs1 rep)

/-- The tail of `FILE_TEMPLATES`: the templated files after
`data/settings.json`. -/
def FILE_TEMPLATES_REST (dumps : Val.JObj → String) : List (String × String) :=
  (FILE_TEMPLATES dumps).tail

end Struct

/-! ## Startup orchestration (`StartupManager.run_startup_checks` and the
step bodies it drives)

The pipeline state joins the working directory (folders, files, backups)
with the report fields that the persisted report reads.  The security
manifest file `data/security_manifest.json` is carried both as a file and
as its parsed content (`manifest`; `none` for absent, unreadable or empty,
the cases `_load_manifest` maps to a falsy result); `dumpM` is the
serialisation `_write_manifest` uses.  The step bodies that only touch
state outside the model (virtual environment, dependencies, diagnostics)
are parameter functions. -/

namespace Orch

/-- The orchestrator's state: the working directory plus the report fields
the persisted report reads. -/
structure OState where
  folders : List String
  files : List (String × Security.FileRec)
  backups : Security.BDir
  manifest : Option Security.Manifest
  repaired_paths : List String
  self_tests : List (String × Bool)
  security_summary : Option Security.SecuritySummary
  deriving Repr, DecidableEq

/-- The `Strukturprüfung` step (`ensure_structure`); creating the manifest
file from its template makes its parsed content the empty manifest. -/
def structure_step (loads : String → Struct.LoadResult) (dumps : Val.JObj → String)
    (fl : String → Option ℚ) (il : String → Option Int)
    (dbInit : Option String) (mt : Nat) (o : OState) : Except Unit OState :=
  match Struct.ensure_structure loads dumps fl il dbInit mt ⟨o.folders, o.files⟩
      o.repaired_paths with
  | .error e => .error e
  | .ok (fs2, rep2) =>
      .ok { o with
        folders := fs2.folders, files := fs2.files, repaired_paths := rep2,
        manifest :=
          if (Security.lookupA o.files "data/security_manifest.json").isSome
          then o.manifest
          else some { files := [], created_at := "", updated_at := "" } }

/-- One `SecurityManager().verify_files()` call over the joint state: run
the verification pass and reflect the manifest write — which happens when
the manifest was not loadable (initial creation) or the dirty flag was set
— in both the parsed view and the file. -/
def verify_step (h : String → String) (ck : Security.Clock)
    (dumpM : Security.Manifest → String) (o : OState) :
    OState × Security.SecuritySummary :=
  let st : Security.St := ⟨o.files, o.manifest, o.backups⟩
  let res := Security.verify_files h ck st
  let written := !o.manifest.isSome || res.1.updated_manifest
  let o1 :=
    match res.2.2.manifest, written with
    | some m, true =>
        { o with
          files := Security.setA o.files "data/security_manifest.json"
            ⟨dumpM m, ck.mtime⟩,
          manifest := some m,
          backups := res.2.2.backups }
    | _, _ => { o with backups := res.2.2.backups }
  (o1, res.1)

/-- The `Datensicherheit prüfen` step (`verify_data_security`). -/
def verify_data_security (h : String → String) (ck : Security.Clock)
    (dumpM : Security.Manifest → String) (o : OState) : OState :=
  let r := verify_step h ck dumpM o
  { r.1 with security_summary := some r.2 }

/-- The `Farbaudit ausführen` step (`audit_color_contrast`): write
`data/color_audit.json` (`auditText` is the serialised payload, for the
success and for the failure path alike; `auditOk` is whether
`generate_report` succeeded — on failure the step returns after the
write), then re-run the verification pass. -/
def audit_color_contrast (h : String → String) (ck : Security.Clock)
    (dumpM : Security.Manifest → String) (auditOk : Bool) (auditText : String)
    (mt : Nat) (o : OState) : OState :=
  let o1 := { o with
    files := Security.setA o.files "data/color_audit.json" ⟨auditText, mt⟩ }
  if auditOk then
    let r := verify_step h ck dumpM o1
    { r.1 with security_summary := some r.2 }
  else o1

/-- `StartupManager._self_test_settings`: a missing or undecodable settings
file is replaced by the template and fails the test; decodable content is
normalised, rewritten when the normalisation changed it, and passes. -/
def self_test_settings (loads : String → Struct.LoadResult)
    (dumps : Val.JObj → String) (fl : String → Option ℚ) (il : String → Option Int)
    (mt : Nat) (o : OState) : Except Unit (OState × Bool) :=
  match Security.lookupA o.files "data/settings.json" with
  | none =>
      .ok ({ o with
        files := Security.setA o.files "data/settings.json"
          ⟨dumps Val.DEFAULT_SETTINGS, mt⟩,
        repaired_paths :=
          if o.repaired_paths.contains "data/settings.json" then o.repaired_paths
          else o.repaired_paths ++ ["data/settings.json"] }, false)
  | some rec =>
      match loads rec.content with
      | .decodeError =>
          .ok ({ o with
            files := Security.setA o.files "data/settings.json"
              ⟨dumps Val.DEFAULT_SETTINGS, mt⟩,
            repaired_paths :=
              if o.repaired_paths.contains "data/settings.json" then o.repaired_paths
              else o.repaired_paths ++ ["data/settings.json"] }, false)
      | .obj data isDict =>
          let s := Val.normalise fl il data
          if isDict && Val.pyEq (.jobj s.1) (.jobj data) then .ok (o, true)
          else
            .ok ({ o with
              files := Security.setA o.files "data/settings.json" ⟨dumps s.1, mt⟩,
              repaired_paths :=
                if o.repaired_paths.contains "data/settings.json" then o.repaired_paths
                else o.repaired_paths ++ ["data/settings.json"] }, true)
      | .typeError => .error ()

/-- `StartupManager.run_self_tests` (`compileOk` is the
`compileall.compile_dir` outcome of the code self-test). -/
def run_self_tests (loads : String → Struct.LoadResult) (dumps : Val.JObj → String)
    (fl : String → Option ℚ) (il : String → Option Int) (compileOk : Bool)
    (mt : Nat) (o : OState) : Except Unit OState :=
  let o1 := { o with self_tests := o.self_tests ++ [("Python-Codeprüfung", compileOk)] }
  match self_test_settings loads dumps fl il mt o1 with
  | .error e => .error e
  | .ok (o2, passed) =>
      .ok { o2 with self_tests := o2.self_tests ++ [("Einstellungsprüfung", passed)] }

/-- `StartupManager._persist_report`: compute `all_self_tests_passed` (an
empty list passes) and write the report file (`reportDump` serialises the
payload as a function of the pass flag; the remaining payload fields are
outside the model).  Returns the persisted flag. -/
def persist_report (reportDump : Bool → String) (mt : Nat) (o : OState) :
    OState × Bool :=
  let allp := o.self_tests.all (fun t => t.2)
  ({ o with files := (Security.setA o.files "data/selftest_report.json"
      ⟨reportDump allp, mt⟩) }, allp)

/-- `run_startup_checks` in the run shape claim C7 quantifies over: the
seven steps execute in order and none raises (the virtual-environment,
dependency and diagnostics step bodies are `venvB`, `depB`, `diagB`), then
the report is persisted. -/
def run_pipeline (loads : String → Struct.LoadResult) (dumps : Val.JObj → String)
    (fl : String → Option ℚ) (il : String → Option Int) (dbInit : Option String)
    (h : String → String) (ck4 ck5 : Security.Clock)
    (dumpM : Security.Manifest → String) (auditOk : Bool) (auditText : String)
    (compileOk : Bool) (reportDump : Bool → String) (mt : Nat)
    (venvB depB diagB : OState → OState) (o : OState) :
    Except Unit (OState × Bool) :=
  match structure_step loads dumps fl il dbInit mt o with
  | .error e => .error e
  | .ok o1 =>
      let o2 := venvB o1
      let o3 := depB o2
      let o4 := verify_data_security h ck4 dumpM o3
      let o5 := audit_color_contrast h ck5 dumpM auditOk auditText mt o4
      match run_self_tests loads dumps fl il compileOk mt o5 with
      | .error e => .error e
      | .ok o6 => .ok (persist_report reportDump mt (diagB o6))

end Orch

/-! ## Concrete states used by witnesses and counterexamples -/

namespace Wit

/-- An injective digest model that never collides with the sentinel. -/
def hashW : String → String := fun c => "#" ++ c

/-- A pass clock for witnesses. -/
def ckW : Security.Clock :=
  { iso := "2026-01-01T00:00:00", stamp := "20260101-000000", mtime := 100 }

/-- A backup directory holding six backups of `todo.txt` and one unrelated
backup, for the pruning witness. -/
def pruneSt : Security.St :=
  { files := [], manifest := none,
    backups := { present := true, files :=
      [⟨"todo.txt.20260101-000001.bak", 1, "a"⟩,
       ⟨"todo.txt.20260101-000002.bak", 2, "b"⟩,
       ⟨"todo.txt.20260101-000003.bak", 3, "c"⟩,
       ⟨"todo.txt.20260101-000004.bak", 4, "d"⟩,
       ⟨"todo.txt.20260101-000005.bak", 5, "e"⟩,
       ⟨"todo.txt.20260101-000006.bak", 6, "f"⟩,
       ⟨"Fortschritt.txt.20260101-000001.bak", 7, "g"⟩] } }

/-- Manifest for the change-event witness: `todo.txt` recorded with an old
digest. -/
def c1M : Security.Manifest :=
  { files := [("todo.txt",
      { sha256 := some "#old", size := some 3, last_checked := "T0" })] }

/-- State for the change-event witness: `todo.txt` mutated on disk, one old
backup present. -/
def c1St : Security.St :=
  { files := [("todo.txt", { content := "new", mtime := 90 })],
    manifest := some c1M,
    backups :=
      { present := true,
        files := [⟨"todo.txt.20250101-000000.bak", 10, "old"⟩] } }

/-- Disk contents for the write-avoidance states: every protected file
present, its path as content. -/
def c6Files : List (String × Security.FileRec) :=
  Security.SENSITIVE_FILES.map (fun p => (p, { content := p, mtime := 1 }))

/-- A manifest matching `c6Files` exactly, with an older check stamp. -/
def c6M : Security.Manifest :=
  { files := Security.SENSITIVE_FILES.map (fun p =>
      (p, { sha256 := some (hashW p), size := some p.utf8ByteSize,
            last_checked := "T0" })) }

/-- State whose verification pass matches every digest: nothing dirty. -/
def c6St : Security.St :=
  { files := c6Files, manifest := some c6M, backups := {} }

/-- `float(str)` oracle for the structure runs: no string parses. -/
def flW : String → Option ℚ := fun _ => none

/-- `int(str)` oracle for the structure runs: no string parses. -/
def ilW : String → Option Int := fun _ => none

/-- The keys of a JSON object joined with semicolons. -/
def joKeys : Val.JObj → String
  | .nil => ""
  | .cons k _ rest => k ++ ";" ++ joKeys rest

/-- A `json.dumps` oracle: the joined keys (enough to tell the written
payloads apart in the examples). -/
def dumpsW : Val.JObj → String := joKeys

/-- A `json.loads`-with-`dict` oracle: one designated good settings text
loads as the default settings dict, one as a partial dict (normalisation
fills its missing keys); everything else fails to decode. -/
def loadsW : String → Struct.LoadResult := fun t =>
  if t = "SETTINGS_OK" then .obj Val.DEFAULT_SETTINGS true
  else if t = "SETTINGS_PARTIAL" then
    .obj (Val.joOf [("font_scale", .jnum (mkRat 6 5))]) true
  else .decodeError

/-- Working directory whose settings file holds invalid JSON. -/
def c8Fs : Struct.FS :=
  { folders := [], files := [("data/settings.json", ⟨"kaputt", 3⟩)] }

/-- The structure-repair run on `c8Fs`. -/
def c8Run : Struct.FS × List String :=
  (Struct.ensure_structure loadsW dumpsW flW ilW none 7 c8Fs []).toOption.getD
    (⟨⟨[], []⟩, []⟩)

/-- Working directory with a clean settings file and one extra present
templated file. -/
def c8FsW : Struct.FS :=
  { folders := [],
    files := [("data/settings.json", ⟨"SETTINGS_OK", 3⟩),
              ("data/persistent_notes.txt", ⟨"meine Notizen", 4⟩)] }

/-- The structure-repair run on `c8FsW`. -/
def c8RunW : Struct.FS × List String :=
  (Struct.ensure_structure loadsW dumpsW flW ilW none 7 c8FsW []).toOption.getD
    (⟨⟨[], []⟩, []⟩)

/-- Working directory whose settings file decodes to a partial dict, so
normalisation changes it. -/
def c8FsW2 : Struct.FS :=
  { folders := [], files := [("data/settings.json", ⟨"SETTINGS_PARTIAL", 3⟩)] }

/-- The structure-repair run on `c8FsW2`. -/
def c8RunW2 : Struct.FS × List String :=
  (Struct.ensure_structure loadsW dumpsW flW ilW none 7 c8FsW2 []).toOption.getD
    (⟨⟨[], []⟩, []⟩)

/-- The pristine working directory for the orchestrator run. -/
def c7O0 : Orch.OState :=
  { folders := [], files := [], backups := {}, manifest := none,
    repaired_paths := [], self_tests := [], security_summary := none }

/-- `json.loads` oracle for the pipeline: only the settings template text
parses (to the defaults dict). -/
def loads7 : String → Struct.LoadResult := fun t =>
  if t = dumpsW Val.DEFAULT_SETTINGS then .obj Val.DEFAULT_SETTINGS true
  else .decodeError

/-- `_write_manifest` serialisation oracle. -/
def dumpMW : Security.Manifest → String := fun _ => "MANIFEST"

/-- Serialised selftest-report oracle. -/
def reportDumpW : Bool → String := fun b =>
  if b then "REPORT:pass" else "REPORT:fail"

/-- The pristine pipeline run, over an arbitrary digest function, an
arbitrary colour-audit outcome and an arbitrary code-self-test outcome. -/
def c7Run (h : String → String) (auditOk compileOk : Bool) :
    Except Unit (Orch.OState × Bool) :=
  Orch.run_pipeline loads7 dumpsW flW ilW (some "DB") h ckW ckW dumpMW auditOk
    "AUDIT" compileOk reportDumpW 7 id id id c7O0

/-- The pristine pipeline run with the concrete digest model, succeeding
colour audit and passing code self-test. -/
def c7P : Orch.OState × Bool :=
  (c7Run hashW true true).toOption.getD (c7O0, false)

end Wit

/-! ## Theorems -/

/-- If the lowered text contains "connection timed out" then it contains
"timed out" (the latter is an infix of the former). -/
theorem containsSub_timed_out_of_connection {text : String}
    (hc : Dep.containsSub text "connection timed out" = true) :
    Dep.containsSub text "timed out" = true := by
  simp only [Dep.containsSub, decide_eq_true_eq] at hc ⊢
  exact List.IsInfix.trans (by decide) hc

/-- `_detect_offline_hint` yields the offline hint when a marker occurs. -/
theorem detect_offline_hint_of_marker {message : String}
    (hm : ∃ marker ∈ Dep.OFFLINE_MARKERS,
      Dep.containsSub (Dep.pyLower message) marker = true) :
    Dep.detect_offline_hint message = some Dep.offlineHintText := by
  obtain ⟨marker, hmem, hc⟩ := hm
  unfold Dep.detect_offline_hint
  rw [if_pos]
  exact List.any_eq_true.mpr ⟨marker, hmem, hc⟩

/-- `_detect_offline_hint` yields the timeout hint when "timed out" occurs
and no offline marker does. -/
theorem detect_offline_hint_of_timeout {message : String}
    (ht : Dep.containsSub (Dep.pyLower message) "timed out" = true)
    (hno : ∀ marker ∈ Dep.OFFLINE_MARKERS,
      Dep.containsSub (Dep.pyLower message) marker = false) :
    Dep.detect_offline_hint message = some Dep.timeoutHintText := by
  unfold Dep.detect_offline_hint
  rw [if_neg, if_pos]
  · simp [ht]
  · simp only [List.any_eq_true, not_exists]
    intro marker
    simp only [not_and]
    intro hmem
    simp [hno marker hmem]

/-- `_detect_offline_hint` yields no hint when neither a marker nor timeout
phrasing occurs. -/
theorem detect_offline_hint_of_none {message : String}
    (hno : ∀ marker ∈ Dep.OFFLINE_MARKERS,
      Dep.containsSub (Dep.pyLower message) marker = false)
    (ht : Dep.containsSub (Dep.pyLower message) "timed out" = false) :
    Dep.detect_offline_hint message = none := by
  have hconn : Dep.containsSub (Dep.pyLower message) "connection timed out" = false := by
    cases hcase : Dep.containsSub (Dep.pyLower message) "connection timed out" with
    | false => rfl
    | true => exact absurd (containsSub_timed_out_of_connection hcase) (by simp [ht])
  unfold Dep.detect_offline_hint
  rw [if_neg, if_neg]
  · simp [hconn, ht]
  · simp only [List.any_eq_true, not_exists]
    intro marker
    simp only [not_and]
    intro hmem
    simp [hno marker hmem]

/-- C2: for every command and every subprocess failure mode (non-zero exit
captured as `CalledProcessError`, or a process-spawn `OSError`),
`DependencyManager.install_package` returns a `DependencyInstallOutcome`
with `success = false` carrying the captured (stripped) stdout and stderr;
the embedding `Dep.run` is a total function, which is the never-raises
contract. -/
theorem C2_install_package_failure_outcome :
    (∀ (out err : Option String) (pkg : String) (descr : Option String),
      (Dep.install_package (.calledProcessError out err) pkg descr).success = false ∧
      (Dep.install_package (.calledProcessError out err) pkg descr).stdout
        = Dep.pyStrip (Dep.orEmpty out) ∧
      (Dep.install_package (.calledProcessError out err) pkg descr).stderr
        = Dep.pyStrip (Dep.orEmpty err)) ∧
    (∀ (message pkg : String) (descr : Option String),
      (Dep.install_package (.osError message) pkg descr).success = false ∧
      (Dep.install_package (.osError message) pkg descr).stdout = "" ∧
      (Dep.install_package (.osError message) pkg descr).stderr = message) := by
  refine ⟨fun out err pkg descr => ?_, fun message pkg descr => ?_⟩ <;>
    simp [Dep.install_package, Dep.run]

/-- C9: for every failed dependency command, the outcome has
`offline_detected = true` when the captured error text (stderr, falling
back to stdout when stderr is empty; for spawn errors the exception
message), lower-cased, contains a configured offline marker, and
`offline_detected = false` when it contains none of the markers and no
"timed out" phrasing. -/
theorem C9_offline_classification :
    (∀ (out err : Option String) (pkg : String) (descr : Option String),
      (∃ marker ∈ Dep.OFFLINE_MARKERS,
        Dep.containsSub (Dep.pyLower
          (Dep.orElse (Dep.pyStrip (Dep.orEmpty err)) (Dep.pyStrip (Dep.orEmpty out))))
          marker = true) →
      (Dep.install_package (.calledProcessError out err) pkg descr).offline_detected = true) ∧
    (∀ (out err : Option String) (pkg : String) (descr : Option String),
      (∀ marker ∈ Dep.OFFLINE_MARKERS,
        Dep.containsSub (Dep.pyLower
          (Dep.orElse (Dep.pyStrip (Dep.orEmpty err)) (Dep.pyStrip (Dep.orEmpty out))))
          marker = false) →
      Dep.containsSub (Dep.pyLower
          (Dep.orElse (Dep.pyStrip (Dep.orEmpty err)) (Dep.pyStrip (Dep.orEmpty out))))
          "timed out" = false →
      (Dep.install_package (.calledProcessError out err) pkg descr).offline_detected = false) ∧
    (∀ (message pkg : String) (descr : Option String),
      (∃ marker ∈ Dep.OFFLINE_MARKERS,
        Dep.containsSub (Dep.pyLower message) marker = true) →
      (Dep.install_package (.osError message) pkg descr).offline_detected = true) ∧
    (∀ (message pkg : String) (descr : Option String),
      (∀ marker ∈ Dep.OFFLINE_MARKERS,
        Dep.containsSub (Dep.pyLower message) marker = false) →
      Dep.containsSub (Dep.pyLower message) "timed out" = false →
      (Dep.install_package (.osError message) pkg descr).offline_detected = false) := by
  refine ⟨fun out err pkg descr hm => ?_, fun out err pkg descr hno hnot => ?_,
          fun message pkg descr hm => ?_, fun message pkg descr hno hnot => ?_⟩ <;>
    simp only [Dep.install_package, Dep.run]
  · simp [detect_offline_hint_of_marker hm]
  · simp [detect_offline_hint_of_none hno hnot]
  · simp [detect_offline_hint_of_marker hm]
  · simp [detect_offline_hint_of_none hno hnot]

/-- Witness for C9 at concrete inputs: a stderr of "Name or service not
known" is classified offline, a stderr of "permission denied" is not. -/
theorem C9_offline_classification_witness :
    (Dep.install_package (.calledProcessError (some "") (some "Name or service not known"))
      "simpleaudio" none).offline_detected = true ∧
    (Dep.install_package (.calledProcessError (some "") (some "permission denied"))
      "simpleaudio" none).offline_detected = false := by
  constructor
  · exact C9_offline_classification.1 (some "") (some "Name or service not known")
      "simpleaudio" none ⟨"name or service not known", by decide, by decide⟩
  · exact C9_offline_classification.2.1 (some "") (some "permission denied")
      "simpleaudio" none (by decide) (by decide)

/-- C10: a failed command whose captured error text contains "timed out"
(case-insensitively) but none of the offline markers yields
`offline_detected = true` together with the distinct timeout hint:
timeouts are classified as offline, not merely given a separate hint. -/
theorem C10_timeout_classified_offline
    (out err : Option String) (pkg : String) (descr : Option String)
    (htimeout : Dep.containsSub (Dep.pyLower
      (Dep.orElse (Dep.pyStrip (Dep.orEmpty err)) (Dep.pyStrip (Dep.orEmpty out))))
      "timed out" = true)
    (hno : ∀ marker ∈ Dep.OFFLINE_MARKERS,
      Dep.containsSub (Dep.pyLower
        (Dep.orElse (Dep.pyStrip (Dep.orEmpty err)) (Dep.pyStrip (Dep.orEmpty out))))
        marker = false) :
    (Dep.install_package (.calledProcessError out err) pkg descr).offline_detected = true ∧
    (Dep.install_package (.calledProcessError out err) pkg descr).offline_hint
      = Dep.timeoutHintText ∧
    Dep.timeoutHintText ≠ Dep.offlineHintText := by
  have hd := detect_offline_hint_of_timeout htimeout hno
  refine ⟨?_, ?_, by decide⟩ <;>
  · simp only [Dep.install_package, Dep.run]
    rw [hd]
    rfl

/-- The step loop distributes over list append. -/
theorem runSteps_append {α : Type}
    (xs ys : List (String × (Startup.Report α → Except String (Startup.Report α))))
    (r : Startup.Report α) :
    Startup.runSteps (xs ++ ys) r = Startup.runSteps ys (Startup.runSteps xs r) := by
  simp [Startup.runSteps, List.foldl_append]

/-- C3: an exception inside any single step of the startup pipeline is
caught at the step boundary and appended to the report as an error message
naming that step, and every later step in the fixed order still executes
(the run equals the remaining step loop applied to the state extended with
the error message); the embedding of the full pipeline run is a total
function, so it never propagates an exception to its caller. -/
theorem C3_step_fault_isolation {α : Type}
    (behaviors : List (Startup.Report α → Except String (Startup.Report α)))
    (r : Startup.Report α)
    (pre post : List (String × (Startup.Report α → Except String (Startup.Report α))))
    (label : String) (f : Startup.Report α → Except String (Startup.Report α)) (e : String)
    (hsplit : Startup.STEP_LABELS.zip behaviors = pre ++ (label, f) :: post)
    (herr : f (Startup.runSteps pre r) = .error e) :
    Startup.run_startup_checks behaviors r
      = Startup.runSteps post
          (Startup.log_progress (label ++ " fehlgeschlagen: " ++ e) (Startup.runSteps pre r)) ∧
    (label ++ " fehlgeschlagen: " ++ e)
      ∈ (Startup.log_progress (label ++ " fehlgeschlagen: " ++ e)
          (Startup.runSteps pre r)).messages := by
  constructor
  · rw [Startup.run_startup_checks, hsplit]
    have : pre ++ (label, f) :: post = (pre ++ [(label, f)]) ++ post := by simp
    rw [this, runSteps_append, runSteps_append]
    have hone : ∀ x, f x = .error e → Startup.runSteps [(label, f)] x
        = Startup.log_progress (label ++ " fehlgeschlagen: " ++ e) x := by
      intro x hx
      simp [Startup.runSteps, Startup.run_step, hx]
    rw [hone _ herr]
  · simp [Startup.log_progress]

/-- Witness for C3 at a concrete input: the fourth step (Datensicherheit
prüfen) raises "Boom"; the three later steps still run on the logged
state. -/
theorem C3_step_fault_isolation_witness :
    Startup.run_startup_checks
      [fun r => .ok r, fun r => .ok r, fun r => .ok r, fun _ => .error "Boom",
       fun r => .ok r, fun r => .ok r, fun r => .ok r]
      (⟨[], ()⟩ : Startup.Report Unit)
      = Startup.runSteps
          [("Farbaudit ausführen", fun r => .ok r),
           ("Selbsttests ausführen", fun r => .ok r),
           ("Diagnose erfassen", fun r => .ok r)]
          (Startup.log_progress ("Datensicherheit prüfen" ++ " fehlgeschlagen: " ++ "Boom")
            (Startup.runSteps
              [("Strukturprüfung", fun r => .ok r),
               ("Virtuelle Umgebung prüfen", fun r => .ok r),
               ("Abhängigkeiten prüfen", fun r => .ok r)] ⟨[], ()⟩)) ∧
    ("Datensicherheit prüfen" ++ " fehlgeschlagen: " ++ "Boom")
      ∈ (Startup.log_progress ("Datensicherheit prüfen" ++ " fehlgeschlagen: " ++ "Boom")
          (Startup.runSteps
            [("Strukturprüfung", fun r => .ok r),
             ("Virtuelle Umgebung prüfen", fun r => .ok r),
             ("Abhängigkeiten prüfen", fun r => .ok r)] ⟨[], ()⟩)).messages :=
  C3_step_fault_isolation
    [fun r => .ok r, fun r => .ok r, fun r => .ok r, fun _ => .error "Boom",
     fun r => .ok r, fun r => .ok r, fun r => .ok r] ⟨[], ()⟩
    [("Strukturprüfung", fun r => .ok r),
     ("Virtuelle Umgebung prüfen", fun r => .ok r),
     ("Abhängigkeiten prüfen", fun r => .ok r)]
    [("Farbaudit ausführen", fun r => .ok r),
     ("Selbsttests ausführen", fun r => .ok r),
     ("Diagnose erfassen", fun r => .ok r)]
    "Datensicherheit prüfen" (fun _ => .error "Boom") "Boom" rfl rfl

/-- C4: for every manifest entry, the computed restore point is `ok` iff a
most recent backup for the file's name exists, the entry's recorded digest
is usable (neither absent nor the `"missing"` sentinel), and the digest of
that most recent backup equals the recorded digest; otherwise `missing`
(no backup), `unknown` (no usable digest), or `mismatch` (digests differ).
`_collect_restore_points` computes exactly this for every entry of the
manifest's files section. -/
theorem C4_restore_point_classification (h : String → String) (st : Security.St)
    (rel_path : String) (entry : Security.Entry) :
    ((Security.restore_point_for h st rel_path entry).status = "ok" ↔
      ∃ b, Security.latest_backup st (Security.baseName rel_path) = some b ∧
        ∃ d, entry.sha256 = some d ∧ d ≠ "missing" ∧ h b.content = d) ∧
    ((Security.restore_point_for h st rel_path entry).status = "missing" ↔
      Security.latest_backup st (Security.baseName rel_path) = none) ∧
    ((Security.restore_point_for h st rel_path entry).status = "unknown" ↔
      (∃ b, Security.latest_backup st (Security.baseName rel_path) = some b) ∧
        (entry.sha256 = none ∨ entry.sha256 = some "missing")) ∧
    ((Security.restore_point_for h st rel_path entry).status = "mismatch" ↔
      ∃ b, Security.latest_backup st (Security.baseName rel_path) = some b ∧
        ∃ d, entry.sha256 = some d ∧ d ≠ "missing" ∧ h b.content ≠ d) ∧
    (∀ sec : List (String × Security.Entry),
      Security.collect_restore_points h st sec
        = sec.map (fun kv => Security.restore_point_for h st kv.1 kv.2)) := by
  have hne1 : ("missing" : String) ≠ "ok" := by decide
  have hne2 : ("unknown" : String) ≠ "ok" := by decide
  have hne3 : ("mismatch" : String) ≠ "ok" := by decide
  have hne4 : ("unknown" : String) ≠ "missing" := by decide
  have hne5 : ("ok" : String) ≠ "missing" := by decide
  have hne6 : ("mismatch" : String) ≠ "missing" := by decide
  have hne7 : ("ok" : String) ≠ "unknown" := by decide
  have hne8 : ("mismatch" : String) ≠ "unknown" := by decide
  have hne9 : ("missing" : String) ≠ "unknown" := by decide
  have hne10 : ("missing" : String) ≠ "mismatch" := by decide
  have hne11 : ("unknown" : String) ≠ "mismatch" := by decide
  have hne12 : ("ok" : String) ≠ "mismatch" := by decide
  refine ⟨?_, ?_, ?_, ?_, fun sec => rfl⟩ <;>
    rcases hl : Security.latest_backup st (Security.baseName rel_path) with _ | b <;>
    rcases hs : entry.sha256 with _ | d <;>
    simp only [Security.restore_point_for, hl, hs] <;>
    first
      | (split_ifs with h1 h2 <;> simp_all)
      | simp_all

/-- `List.contains` agrees with membership for strings. -/
theorem contains_iff_mem {l : List String} {a : String} :
    l.contains a = true ↔ a ∈ l :=
  List.elem_iff

/-- Inserting into the mtime-descending sort permutes consing. -/
theorem insertByMtimeDesc_perm (b : Security.BFile) (l : List Security.BFile) :
    (Security.insertByMtimeDesc b l).Perm (b :: l) := by
  induction l with
  | nil => exact List.Perm.refl _
  | cons x xs ih =>
      simp only [Security.insertByMtimeDesc]
      split
      · exact List.Perm.refl _
      · exact (ih.cons x).trans (List.Perm.swap b x xs)

/-- The mtime-descending sort is a permutation of its input. -/
theorem sortByMtimeDesc_perm (l : List Security.BFile) :
    (Security.sortByMtimeDesc l).Perm l := by
  induction l with
  | nil => exact List.Perm.refl _
  | cons x xs ih =>
      exact (insertByMtimeDesc_perm x _).trans (ih.cons x)

/-- Inserting preserves the mtime-descending pairwise order. -/
theorem insertByMtimeDesc_sorted {b : Security.BFile} {l : List Security.BFile}
    (hl : l.Pairwise (fun a c => c.mtime ≤ a.mtime)) :
    (Security.insertByMtimeDesc b l).Pairwise (fun a c => c.mtime ≤ a.mtime) := by
  induction l with
  | nil => simp [Security.insertByMtimeDesc]
  | cons x xs ih =>
      rcases List.pairwise_cons.mp hl with ⟨hx, hxs⟩
      simp only [Security.insertByMtimeDesc]
      split
      · rename_i hcond
        refine List.pairwise_cons.mpr ⟨?_, hl⟩
        intro c hc
        rcases List.mem_cons.mp hc with rfl | hcx
        · exact hcond
        · exact le_trans (hx c hcx) hcond
      · rename_i hcond
        refine List.pairwise_cons.mpr ⟨?_, ih hxs⟩
        intro c hc
        rcases List.mem_cons.mp ((insertByMtimeDesc_perm b xs).mem_iff.mp hc) with rfl | hcx
        · omega
        · exact hx c hcx

/-- The mtime-descending sort is pairwise sorted, newest first. -/
theorem sortByMtimeDesc_sorted (l : List Security.BFile) :
    (Security.sortByMtimeDesc l).Pairwise (fun a c => c.mtime ≤ a.mtime) := by
  induction l with
  | nil => simp [Security.sortByMtimeDesc]
  | cons x xs ih => exact insertByMtimeDesc_sorted ih

/-- In a pairwise mtime-descending list, every dropped element is at most as
recent as every taken one. -/
theorem take_drop_mtime_le {l : List Security.BFile} (k : Nat)
    (hs : l.Pairwise (fun a c => c.mtime ≤ a.mtime)) :
    ∀ a ∈ l.take k, ∀ c ∈ l.drop k, c.mtime ≤ a.mtime := by
  have h0 : l.take k ++ l.drop k = l := List.take_append_drop k l
  have hs2 : (l.take k ++ l.drop k).Pairwise (fun a c => c.mtime ≤ a.mtime) := by
    rw [h0]; exact hs
  exact fun a ha c hc => (List.pairwise_append.mp hs2).2.2 a ha c hc

/-- Dropping the names listed beyond position `keep` of the
mtime-descending sort from a name-unique list keeps a permutation of the
`keep` most recent elements. -/
theorem keep_perm (L : List Security.BFile) (keep : Nat)
    (hnd : (L.map (fun f => f.name)).Nodup) :
    (L.filter (fun f =>
      !((((Security.sortByMtimeDesc L).drop keep).map (fun f => f.name)).contains
        f.name))).Perm ((Security.sortByMtimeDesc L).take keep) := by
  set cand := Security.sortByMtimeDesc L with hcand
  set removed := cand.drop keep with hremoved
  set removedNames := removed.map (fun f => f.name) with hrn
  have hcandL : cand.Perm L := sortByMtimeDesc_perm L
  have hndC : (cand.map (fun f => f.name)).Nodup :=
    ((hcandL.map (fun f : Security.BFile => f.name)).nodup_iff).mpr hnd
  have hsplit : cand = cand.take keep ++ removed := (List.take_append_drop keep cand).symm
  have hdisj : ∀ f ∈ cand.take keep, f.name ∉ removedNames := by
    have hnd2 : ((cand.take keep).map (fun f : Security.BFile => f.name)
        ++ removed.map (fun f : Security.BFile => f.name)).Nodup := by
      rw [← List.map_append, ← hsplit]
      exact hndC
    intro f hf hmem
    exact (List.nodup_append.mp hnd2).2.2
      (List.mem_map_of_mem (fun f : Security.BFile => f.name) hf) (hrn ▸ hmem)
  have h2 : cand.filter (fun f => !(removedNames.contains f.name)) = cand.take keep := by
    conv_lhs => rw [hsplit]
    rw [List.filter_append]
    have ht : (cand.take keep).filter (fun f => !(removedNames.contains f.name))
        = cand.take keep :=
      List.filter_eq_self.mpr (fun f hf => by simpa using hdisj f hf)
    have hd : removed.filter (fun f => !(removedNames.contains f.name)) = [] :=
      List.filter_eq_nil_iff.mpr (fun f hf => by
        have hfm : f.name ∈ removedNames := by
          rw [hrn]
          exact List.mem_map_of_mem (fun g : Security.BFile => g.name) hf
        simpa using hfm)
    rw [ht, hd, List.append_nil]
  exact h2 ▸ (hcandL.filter _).symm

/-- A file name cannot match the backup globs of two prefix-incomparable
stems at once: both stems (with their trailing dot) would be prefixes of
the same name, hence comparable. -/
theorem globMatch_not_both {x y : String} (fname : String)
    (hxy : ¬ (x.data ++ [Char.ofNat 46]) <+: (y.data ++ [Char.ofNat 46]))
    (hyx : ¬ (y.data ++ [Char.ofNat 46]) <+: (x.data ++ [Char.ofNat 46]))
    (hx : Security.globMatch x fname = true)
    (hy : Security.globMatch y fname = true) : False := by
  simp only [Security.globMatch, Bool.and_eq_true, List.isPrefixOf_iff_prefix,
    decide_eq_true_eq] at hx hy
  obtain ⟨⟨hx1, _⟩, _⟩ := hx
  obtain ⟨⟨hy1, _⟩, _⟩ := hy
  rcases le_or_lt (x.data.length + 1) (y.data.length + 1) with hle | hlt
  · refine hxy (List.prefix_of_prefix_length_le hx1 hy1 ?_)
    simp only [List.length_append, List.length_cons, List.length_nil]
    omega
  · refine hyx (List.prefix_of_prefix_length_le hy1 hx1 ?_)
    simp only [List.length_append, List.length_cons, List.length_nil]
    omega

/-- A backup name formed from a stem matches that stem's glob. -/
theorem globMatch_self (y stamp : String) :
    Security.globMatch y (y ++ "." ++ stamp ++ ".bak") = true := by
  have hdot : (".".data : List Char) = [Char.ofNat 46] := by decide
  have hdata : (y ++ "." ++ stamp ++ ".bak").data
      = (y.data ++ [Char.ofNat 46]) ++ (stamp.data ++ ".bak".data) := by
    simp [String.data_append, hdot]
  simp only [Security.globMatch, Bool.and_eq_true, List.isPrefixOf_iff_prefix,
    List.isSuffixOf_iff_suffix, decide_eq_true_eq, hdata]
  refine ⟨⟨List.prefix_append _ _, ?_⟩, ?_⟩
  · have h1 : ((y.data ++ [Char.ofNat 46]) ++ stamp.data) ++ ".bak".data
        = (y.data ++ [Char.ofNat 46]) ++ (stamp.data ++ ".bak".data) := by
      simp
    exact h1 ▸ List.suffix_append _ _
  · simp only [List.length_append, List.length_cons, List.length_nil]
    omega

/-- The stems (base name plus dot) of two distinct protected files are
prefix-incomparable, so their backup globs never overlap. -/
theorem sensitive_stems_incomparable :
    ∀ x ∈ Security.SENSITIVE_FILES, ∀ y ∈ Security.SENSITIVE_FILES, x ≠ y →
      ¬ ((Security.baseName x).data ++ [Char.ofNat 46])
          <+: ((Security.baseName y).data ++ [Char.ofNat 46]) := by decide

/-- The protected-file list has no duplicates. -/
theorem sensitive_nodup : Security.SENSITIVE_FILES.Nodup := by decide

/-- Filtering by a predicate that entails another absorbs the other. -/
theorem filter_absorb {α : Type} (files : List α) (pg cond : α → Bool)
    (himp : ∀ f, pg f = true → cond f = true) :
    (files.filter cond).filter pg = files.filter pg := by
  induction files with
  | nil => rfl
  | cons x xs ih =>
      cases hc : cond x with
      | true => cases hg : pg x <;> simp [List.filter_cons, hc, hg, ih]
      | false =>
          have hgf : pg x = false := by
            cases hg : pg x
            · rfl
            · exact absurd (himp x hg) (by simp [hc])
          simp [List.filter_cons, hc, hgf, ih]

/-- Looking up a different key after a dict store is unchanged. -/
theorem lookupA_setA_ne {α : Type} (l : List (String × α)) (q p : String) (v : α)
    (hne : p ≠ q) :
    Security.lookupA (Security.setA l q v) p = Security.lookupA l p := by
  induction l with
  | nil => simp [Security.setA, Security.lookupA, Ne.symm hne]
  | cons kv rest ih =>
      simp only [Security.setA]
      split
      · rename_i hkv
        have : kv.1 = q := by simpa using hkv
        simp [Security.lookupA, this, Ne.symm hne]
      · simp [Security.lookupA, ih]

/-- Looking up the stored key after a dict store yields the new value. -/
theorem lookupA_setA_eq {α : Type} (l : List (String × α)) (q : String) (v : α) :
    Security.lookupA (Security.setA l q v) q = some v := by
  induction l with
  | nil => simp [Security.setA, Security.lookupA]
  | cons kv rest ih =>
      simp only [Security.setA]
      split
      · simp [Security.lookupA]
      · rename_i hkv
        simp only [Security.lookupA, hkv, ih]
        simp_all

/-- Inserting an element at least as recent as every list member conses. -/
theorem insertByMtimeDesc_eq_cons {b : Security.BFile} {l : List Security.BFile}
    (hl : ∀ x ∈ l, x.mtime ≤ b.mtime) :
    Security.insertByMtimeDesc b l = b :: l := by
  cases l with
  | nil => rfl
  | cons x xs =>
      simp [Security.insertByMtimeDesc, hl x (List.mem_cons_self x xs)]

/-- If a file name matches the glob of `qbase` it cannot match that of a
stem-incomparable `pbase`; contrapositive form. -/
theorem globMatch_excl {pb qb : String}
    (hstem1 : ¬ (pb.data ++ [Char.ofNat 46]) <+: (qb.data ++ [Char.ofNat 46]))
    (hstem2 : ¬ (qb.data ++ [Char.ofNat 46]) <+: (pb.data ++ [Char.ofNat 46])) :
    ∀ fname, Security.globMatch qb fname = true →
      Security.globMatch pb fname = false := by
  intro fname hq
  cases hp : Security.globMatch pb fname
  · rfl
  · exact (globMatch_not_both fname hstem1 hstem2 hp hq).elim

/-- `_create_backup` for `q` leaves regular files, the glob matches of an
incomparable stem `pb`, backup-name uniqueness, and the set of other
backups untouched; any new backup bears the `q` backup name. -/
theorem create_backup_frame (ck : Security.Clock) (st : Security.St) (q : String)
    (pb : String)
    (himp : ∀ fname, Security.globMatch (Security.baseName q) fname = true →
        Security.globMatch pb fname = false) :
    (Security.create_backup ck st q).2.files = st.files ∧
    (Security.create_backup ck st q).2.backups.files.filter
        (fun f => Security.globMatch pb f.name)
      = st.backups.files.filter (fun f => Security.globMatch pb f.name) ∧
    (∀ f ∈ (Security.create_backup ck st q).2.backups.files,
      f.name = Security.baseName q ++ "." ++ ck.stamp ++ ".bak" ∨ f ∈ st.backups.files) ∧
    ((st.backups.files.map (fun f => f.name)).Nodup →
      ((Security.create_backup ck st q).2.backups.files.map (fun f => f.name)).Nodup) := by
  have hnqp : Security.globMatch pb
      (Security.baseName q ++ "." ++ ck.stamp ++ ".bak") = false :=
    himp _ (globMatch_self _ _)
  unfold Security.create_backup
  cases hrec : Security.lookupA st.files q with
  | none => exact ⟨rfl, rfl, fun f hf => Or.inr hf, fun hnd => hnd⟩
  | some rec =>
      refine ⟨rfl, ?_, ?_, ?_⟩
      · simp only [List.filter_cons, hnqp]
        simp only [Bool.false_eq_true, if_false]
        exact filter_absorb st.backups.files _ _ (fun f hf => by
          simp only [decide_eq_true_eq]
          intro hname
          rw [hname] at hf
          exact absurd hf (by simp [hnqp]))
      · intro f hf
        rcases List.mem_cons.mp hf with rfl | hmem
        · exact Or.inl rfl
        · exact Or.inr (List.mem_of_mem_filter hmem)
      · intro hnd
        simp only [List.map_cons]
        refine List.nodup_cons.mpr ⟨?_, ?_⟩
        · intro hmem
          obtain ⟨g, hg, hgname⟩ := List.mem_map.mp hmem
          have := List.of_mem_filter hg
          rw [hgname] at this
          simp at this
        · exact ((List.filter_sublist st.backups.files).map
            (fun f : Security.BFile => f.name)).nodup hnd

/-- `_prune_old_backups` for `qbase` leaves regular files and the glob
matches of an incomparable stem `pb` untouched, removes only existing
backups, and preserves backup-name uniqueness. -/
theorem prune_frame (st : Security.St) (qbase pb : String) (keep : Nat)
    (himp : ∀ fname, Security.globMatch qbase fname = true →
        Security.globMatch pb fname = false) :
    (Security.prune_old_backups st qbase keep).2.files = st.files ∧
    (Security.prune_old_backups st qbase keep).2.backups.files.filter
        (fun f => Security.globMatch pb f.name)
      = st.backups.files.filter (fun f => Security.globMatch pb f.name) ∧
    (∀ f ∈ (Security.prune_old_backups st qbase keep).2.backups.files,
      f ∈ st.backups.files) ∧
    ((st.backups.files.map (fun f => f.name)).Nodup →
      ((Security.prune_old_backups st qbase keep).2.backups.files.map
        (fun f => f.name)).Nodup) := by
  unfold Security.prune_old_backups
  split
  · exact ⟨rfl, rfl, fun f hf => hf, fun hnd => hnd⟩
  · refine ⟨rfl, ?_, ?_, ?_⟩
    · exact filter_absorb st.backups.files _ _ (fun f hf => by
        simp only [Bool.not_eq_eq_eq_not, Bool.not_true]
        cases hc : (((Security.sortByMtimeDesc (st.backups.files.filter
            (fun f => Security.globMatch qbase f.name))).drop keep).map
            (fun f => f.name)).contains f.name with
        | false => rfl
        | true =>
            obtain ⟨g, hg, hgname⟩ := List.mem_map.mp (contains_iff_mem.mp hc)
            have hgM : g ∈ st.backups.files.filter
                (fun f => Security.globMatch qbase f.name) :=
              (sortByMtimeDesc_perm _).mem_iff.mp (List.mem_of_mem_drop hg)
            have hgq := List.of_mem_filter hgM
            rw [hgname] at hgq
            have := himp f.name hgq
            rw [hf] at this
            exact absurd this (by simp))
    · exact fun f hf => List.mem_of_mem_filter hf
    · exact fun hnd => ((List.filter_sublist st.backups.files).map
        (fun f : Security.BFile => f.name)).nodup hnd

/-- Processing a protected file `q` during the verification loop does not
disturb anything observable about a different protected file `p`: `p`'s
manifest entry, the regular files, the backups matching `p`'s glob; summary
lists only grow, the timestamp is stable, the dirty flag is monotone; any
new backup bears `q`'s backup name; name-uniqueness is preserved. -/
theorem processFile_frame (h : String → String) (ck : Security.Clock)
    (p q : String) (a : Security.PassSt)
    (hqp : q ≠ p)
    (hstem1 : ¬ ((Security.baseName p).data ++ [Char.ofNat 46])
        <+: ((Security.baseName q).data ++ [Char.ofNat 46]))
    (hstem2 : ¬ ((Security.baseName q).data ++ [Char.ofNat 46])
        <+: ((Security.baseName p).data ++ [Char.ofNat 46])) :
    Security.lookupA (Security.processFile h ck q a).sec p
      = Security.lookupA a.sec p ∧
    (Security.processFile h ck q a).st.files = a.st.files ∧
    (Security.processFile h ck q a).st.backups.files.filter
        (fun f => Security.globMatch (Security.baseName p) f.name)
      = a.st.backups.files.filter
        (fun f => Security.globMatch (Security.baseName p) f.name) ∧
    (∃ t, (Security.processFile h ck q a).summary.issues
      = a.summary.issues ++ t) ∧
    (∃ t, (Security.processFile h ck q a).summary.backups
      = a.summary.backups ++ t) ∧
    (Security.processFile h ck q a).summary.timestamp = a.summary.timestamp ∧
    (a.summary.updated_manifest = true →
      (Security.processFile h ck q a).summary.updated_manifest = true) ∧
    (∀ f ∈ (Security.processFile h ck q a).st.backups.files,
      f.name = Security.baseName q ++ "." ++ ck.stamp ++ ".bak" ∨
      ∃ g ∈ a.st.backups.files, g.name = f.name) ∧
    ((a.st.backups.files.map (fun f => f.name)).Nodup →
      ((Security.processFile h ck q a).st.backups.files.map
        (fun f => f.name)).Nodup) := by
  have hexcl := globMatch_excl hstem1 hstem2
  have hlk : ∀ (v : Security.Entry),
      Security.lookupA (Security.setA a.sec q v) p = Security.lookupA a.sec p :=
    fun v => lookupA_setA_ne a.sec q p v (Ne.symm hqp)
  simp only [Security.processFile]
  split
  · -- missing-file branch
    exact ⟨hlk _, rfl, rfl, ⟨_, rfl⟩, ⟨[], by simp⟩, rfl, fun _ => rfl,
      fun f hf => Or.inr ⟨f, hf, rfl⟩, fun hnd => hnd⟩
  · split
    · -- first-observation branch
      exact ⟨hlk _, rfl, rfl, ⟨[], by simp⟩, ⟨[], by simp⟩, rfl, fun _ => rfl,
        fun f hf => Or.inr ⟨f, hf, rfl⟩, fun hnd => hnd⟩
    · split
      · -- mismatch branch: backup then prune, both framed
        obtain ⟨hcf, hcfil, hcmem, hcnd⟩ :=
          create_backup_frame ck a.st q (Security.baseName p) hexcl
        obtain ⟨hpf, hpfil, hpmem, hpnd⟩ :=
          prune_frame (Security.create_backup ck a.st q).2 (Security.baseName q)
            (Security.baseName p) 5 hexcl
        refine ⟨hlk _, by rw [hpf, hcf], by rw [hpfil, hcfil], ⟨_, rfl⟩, ⟨_, rfl⟩,
          rfl, fun _ => rfl, ?_, fun hnd => hpnd (hcnd hnd)⟩
        intro f hf
        rcases hcmem f (hpmem f hf) with hname | hmem
        · exact Or.inl hname
        · exact Or.inr ⟨f, hmem, rfl⟩
      · -- digest-match branch (with or without a size alert)
        split
        · exact ⟨hlk _, rfl, rfl, ⟨_, rfl⟩, ⟨[], by simp⟩, rfl, fun hu => hu,
            fun f hf => Or.inr ⟨f, hf, rfl⟩, fun hnd => hnd⟩
        · exact ⟨hlk _, rfl, rfl, ⟨[], by simp⟩, ⟨[], by simp⟩, rfl, fun hu => hu,
            fun f hf => Or.inr ⟨f, hf, rfl⟩, fun hnd => hnd⟩

/-- The frame property composed over a run of the verification loop that
only touches files other than `p`. -/
theorem foldProcess_frame (h : String → String) (ck : Security.Clock) (p : String)
    (qs : List String) (a : Security.PassSt)
    (hq : ∀ q ∈ qs, q ≠ p ∧
      ¬ ((Security.baseName p).data ++ [Char.ofNat 46])
          <+: ((Security.baseName q).data ++ [Char.ofNat 46]) ∧
      ¬ ((Security.baseName q).data ++ [Char.ofNat 46])
          <+: ((Security.baseName p).data ++ [Char.ofNat 46])) :
    Security.lookupA (qs.foldl (fun acc path => Security.processFile h ck path acc) a).sec p
      = Security.lookupA a.sec p ∧
    (qs.foldl (fun acc path => Security.processFile h ck path acc) a).st.files
      = a.st.files ∧
    (qs.foldl (fun acc path => Security.processFile h ck path acc) a).st.backups.files.filter
        (fun f => Security.globMatch (Security.baseName p) f.name)
      = a.st.backups.files.filter
        (fun f => Security.globMatch (Security.baseName p) f.name) ∧
    (∃ t, (qs.foldl (fun acc path => Security.processFile h ck path acc) a).summary.issues
      = a.summary.issues ++ t) ∧
    (∃ t, (qs.foldl (fun acc path => Security.processFile h ck path acc) a).summary.backups
      = a.summary.backups ++ t) ∧
    (qs.foldl (fun acc path => Security.processFile h ck path acc) a).summary.timestamp
      = a.summary.timestamp ∧
    (a.summary.updated_manifest = true →
      (qs.foldl (fun acc path => Security.processFile h ck path acc) a).summary.updated_manifest
        = true) ∧
    (∀ f ∈ (qs.foldl (fun acc path => Security.processFile h ck path acc) a).st.backups.files,
      (∃ q ∈ qs, f.name = Security.baseName q ++ "." ++ ck.stamp ++ ".bak") ∨
      ∃ g ∈ a.st.backups.files, g.name = f.name) ∧
    ((a.st.backups.files.map (fun f => f.name)).Nodup →
      ((qs.foldl (fun acc path => Security.processFile h ck path acc) a).st.backups.files.map
        (fun f => f.name)).Nodup) := by
  induction qs generalizing a with
  | nil =>
      exact ⟨rfl, rfl, rfl, ⟨[], by simp⟩, ⟨[], by simp⟩, rfl, fun hu => hu,
        fun f hf => Or.inr ⟨f, hf, rfl⟩, fun hnd => hnd⟩
  | cons q qs ih =>
      obtain ⟨hq1, hq2, hq3⟩ := hq q (List.mem_cons_self q qs)
      obtain ⟨f1, f2, f3, ⟨t1, ht1⟩, ⟨u1, hu1⟩, f6, f7, f8, f9⟩ :=
        processFile_frame h ck p q a hq1 hq2 hq3
      obtain ⟨g1, g2, g3, ⟨t2, ht2⟩, ⟨u2, hu2⟩, g6, g7, g8, g9⟩ :=
        ih (Security.processFile h ck q a) (fun r hr => hq r (List.mem_cons_of_mem q hr))
      simp only [List.foldl_cons]
      refine ⟨g1.trans f1, g2.trans f2, g3.trans f3,
        ⟨t1 ++ t2, by rw [ht2, ht1, List.append_assoc]⟩,
        ⟨u1 ++ u2, by rw [hu2, hu1, List.append_assoc]⟩,
        g6.trans f6, fun hu => g7 (f7 hu), ?_, fun hnd => g9 (f9 hnd)⟩
      intro f hf
      rcases g8 f hf with ⟨r, hr, hrname⟩ | ⟨g, hg, hgname⟩
      · exact Or.inl ⟨r, List.mem_cons_of_mem q hr, hrname⟩
      · rcases f8 g hg with hname | ⟨g0, hg0, hg0name⟩
        · exact Or.inl ⟨q, List.mem_cons_self q qs, by rw [← hgname, hname]⟩
        · exact Or.inr ⟨g0, hg0, by rw [hg0name, hgname]⟩

/-- `ensure_manifest` reuses a loadable manifest unchanged. -/
theorem ensure_manifest_some (h : String → String) (ck : Security.Clock)
    (st : Security.St) (m : Security.Manifest) (hman : st.manifest = some m) :
    Security.ensure_manifest h ck st = (m, st) := by
  unfold Security.ensure_manifest
  rw [hman]

/-- `finalizeSummary` keeps the issue and backup lists of the loop. -/
theorem finalizeSummary_lists (h : String → String) (st : Security.St)
    (p : Security.PassSt) :
    (Security.finalizeSummary h st p).issues = p.summary.issues ∧
    (Security.finalizeSummary h st p).backups = p.summary.backups := by
  simp only [Security.finalizeSummary]
  split <;> split <;> first | constructor <;> rfl | (split <;> constructor <;> rfl)

/-- `finalizeSummary` reports `attention` when the loop recorded an
issue. -/
theorem finalizeSummary_attention (h : String → String) (st : Security.St)
    (p : Security.PassSt) (hne : p.summary.issues ≠ []) :
    (Security.finalizeSummary h st p).status = "attention" := by
  simp only [Security.finalizeSummary]
  cases hI : p.summary.issues with
  | nil => exact absurd hI hne
  | cons x xs =>
      split
      · rfl
      · split
        · rfl
        · rename_i hfalse
          simp at hfalse

/-- `verify_files`, once the manifest is loadable, is the finishing stage
applied to the loop result. -/
theorem verify_files_eq_finish (h : String → String) (ck : Security.Clock)
    (st : Security.St) (m : Security.Manifest) (hman : st.manifest = some m) :
    Security.verify_files h ck st
      = Security.verifyFinish h ck m (Security.verifyLoop h ck m st) := by
  unfold Security.verify_files
  rw [ensure_manifest_some h ck st m hman]

/-- Projections of the finishing stage over an abstract loop result. -/
theorem verifyFinish_parts (h : String → String) (ck : Security.Clock)
    (m : Security.Manifest) (p : Security.PassSt) :
    (Security.verifyFinish h ck m p).2.1 = p.sec ∧
    (Security.verifyFinish h ck m p).2.2.backups = p.st.backups ∧
    (Security.verifyFinish h ck m p).2.2.files = p.st.files ∧
    (Security.verifyFinish h ck m p).1
      = Security.finalizeSummary h (Security.verifyFinish h ck m p).2.2 p := by
  unfold Security.verifyFinish
  refine ⟨rfl, ?_, ?_, rfl⟩ <;>
  · simp only [Security.write_manifest]
    split <;> rfl

/-- C5: for every original file name and every backup-directory state (with
directory-unique file names), one `_prune_old_backups` call with retention
`keep` returns exactly the dropped part of the mtime-descending-sorted glob
matches, leaves the matching records a permutation of the `keep` most
recent ones (hence at most `keep` of them), every removed record is at most
as recent as every retained one, and non-matching records are untouched. -/
theorem C5_prune_retention (st : Security.St) (name : String) (keep : Nat)
    (hpres : st.backups.present = true)
    (hnd : (st.backups.files.map (fun f => f.name)).Nodup) :
    (Security.prune_old_backups st name keep).1
      = (Security.sortByMtimeDesc
          (st.backups.files.filter (fun f => Security.globMatch name f.name))).drop keep ∧
    ((Security.prune_old_backups st name keep).2.backups.files.filter
        (fun f => Security.globMatch name f.name)).Perm
      ((Security.sortByMtimeDesc
          (st.backups.files.filter (fun f => Security.globMatch name f.name))).take keep) ∧
    ((Security.prune_old_backups st name keep).2.backups.files.filter
        (fun f => Security.globMatch name f.name)).length ≤ keep ∧
    (∀ a ∈ (Security.sortByMtimeDesc
          (st.backups.files.filter (fun f => Security.globMatch name f.name))).take keep,
     ∀ c ∈ (Security.sortByMtimeDesc
          (st.backups.files.filter (fun f => Security.globMatch name f.name))).drop keep,
      c.mtime ≤ a.mtime) ∧
    (∀ f ∈ st.backups.files, Security.globMatch name f.name = false →
      f ∈ (Security.prune_old_backups st name keep).2.backups.files) ∧
    (∀ f ∈ (Security.prune_old_backups st name keep).2.backups.files,
      f ∈ st.backups.files) := by
  have hpres' : ¬ st.backups.present = false := by simp [hpres]
  simp only [Security.prune_old_backups, if_neg hpres']
  set M := st.backups.files.filter (fun f => Security.globMatch name f.name) with hM
  set cand := Security.sortByMtimeDesc M with hcand
  set removed := cand.drop keep with hremoved
  set removedNames := removed.map (fun f => f.name) with hrn
  have hcandM : cand.Perm M := sortByMtimeDesc_perm M
  -- directory-unique names carry over to the matching candidates
  have hndM : (M.map (fun f => f.name)).Nodup :=
    ((List.filter_sublist st.backups.files).map (fun f : Security.BFile => f.name)).nodup hnd
  -- the matching survivors are a permutation of the kept candidates
  have hcomm :
      (st.backups.files.filter (fun f => !(removedNames.contains f.name))).filter
          (fun f => Security.globMatch name f.name)
        = M.filter (fun f => !(removedNames.contains f.name)) := by
    rw [hM, List.filter_filter, List.filter_filter]
    congr 1
    funext f
    exact Bool.and_comm _ _
  have hkeep : (M.filter (fun f => !(removedNames.contains f.name))).Perm
      (cand.take keep) := keep_perm M keep hndM
  have hmain : ((st.backups.files.filter
      (fun f => !(removedNames.contains f.name))).filter
      (fun f => Security.globMatch name f.name)).Perm (cand.take keep) := by
    rw [hcomm]; exact hkeep
  refine ⟨by trivial, hmain, ?_, take_drop_mtime_le keep (sortByMtimeDesc_sorted M), ?_, ?_⟩
  · calc ((st.backups.files.filter (fun f => !(removedNames.contains f.name))).filter
        (fun f => Security.globMatch name f.name)).length
        = (cand.take keep).length := hmain.length_eq
      _ ≤ keep := by simp
  · intro f hf hmatch
    have hnotin : removedNames.contains f.name = false := by
      cases hc : removedNames.contains f.name with
      | false => rfl
      | true =>
          have hmem : f.name ∈ removedNames := contains_iff_mem.mp hc
          rw [hrn] at hmem
          obtain ⟨g, hg, hgname⟩ := List.mem_map.mp hmem
          have hgM : g ∈ M := hcandM.mem_iff.mp (List.mem_of_mem_drop hg)
          rw [hM] at hgM
          have hgmatch := List.of_mem_filter hgM
          rw [hgname, hmatch] at hgmatch
          exact absurd hgmatch (by simp)
    exact List.mem_filter.mpr ⟨hf, by rw [hnotin]; rfl⟩
  · intro f hf
    exact List.mem_of_mem_filter hf

/-- Witness for C5 at a concrete directory: six `todo.txt` backups with
distinct names, retention 5. -/
theorem C5_prune_retention_witness :
    (Security.prune_old_backups Wit.pruneSt "todo.txt" 5).1
      = (Security.sortByMtimeDesc
          (Wit.pruneSt.backups.files.filter
            (fun f => Security.globMatch "todo.txt" f.name))).drop 5 ∧
    ((Security.prune_old_backups Wit.pruneSt "todo.txt" 5).2.backups.files.filter
        (fun f => Security.globMatch "todo.txt" f.name)).Perm
      ((Security.sortByMtimeDesc
          (Wit.pruneSt.backups.files.filter
            (fun f => Security.globMatch "todo.txt" f.name))).take 5) ∧
    ((Security.prune_old_backups Wit.pruneSt "todo.txt" 5).2.backups.files.filter
        (fun f => Security.globMatch "todo.txt" f.name)).length ≤ 5 ∧
    (∀ a ∈ (Security.sortByMtimeDesc
          (Wit.pruneSt.backups.files.filter
            (fun f => Security.globMatch "todo.txt" f.name))).take 5,
     ∀ c ∈ (Security.sortByMtimeDesc
          (Wit.pruneSt.backups.files.filter
            (fun f => Security.globMatch "todo.txt" f.name))).drop 5,
      c.mtime ≤ a.mtime) ∧
    (∀ f ∈ Wit.pruneSt.backups.files, Security.globMatch "todo.txt" f.name = false →
      f ∈ (Security.prune_old_backups Wit.pruneSt "todo.txt" 5).2.backups.files) ∧
    (∀ f ∈ (Security.prune_old_backups Wit.pruneSt "todo.txt" 5).2.backups.files,
      f ∈ Wit.pruneSt.backups.files) :=
  C5_prune_retention Wit.pruneSt "todo.txt" 5 (by decide) (by decide)

/-- Witness for C10 at a concrete input: stderr "Connection timed out". -/
theorem C10_timeout_classified_offline_witness :
    (Dep.install_package (.calledProcessError (some "") (some "Connection timed out"))
      "simpleaudio" none).offline_detected = true ∧
    (Dep.install_package (.calledProcessError (some "") (some "Connection timed out"))
      "simpleaudio" none).offline_hint = Dep.timeoutHintText ∧
    Dep.timeoutHintText ≠ Dep.offlineHintText :=
  C10_timeout_classified_offline (some "") (some "Connection timed out") "simpleaudio" none
    (by decide) (by decide)

/-- Two filters over the same list commute. -/
theorem filter_comm_bool {α : Type} (L : List α) (pg cond : α → Bool) :
    (L.filter cond).filter pg = (L.filter pg).filter cond := by
  rw [List.filter_filter, List.filter_filter]
  congr 1
  funext f
  exact Bool.and_comm _ _

set_option maxHeartbeats 1000000 in
/-- C1: for every protected file whose manifest entry carries a recorded
digest that differs from the current digest of the file's bytes, one
`verify_files` call snapshots the file's current bytes as exactly one new
backup (every other glob match for that name existed before), prunes the
backups for that file name down to the retention count of five, updates
the entry's digest and size to the current values, records an issue naming
the mismatch and the backup location, and ends with summary status
`attention`.  The filesystem hypotheses state the normal situation: the
manifest is loadable, the backup name of this pass is fresh, existing
backups predate the changed file's modification time (`shutil.copy2`
preserves the source mtime), and backup file names are unique. -/
theorem C1_change_event (h : String → String) (ck : Security.Clock)
    (st : Security.St) (m : Security.Manifest) (p : String)
    (entry0 : Security.Entry) (d : String) (rec : Security.FileRec)
    (hp : p ∈ Security.SENSITIVE_FILES)
    (hman : st.manifest = some m)
    (hentry : Security.lookupA m.files p = some entry0)
    (hd : entry0.sha256 = some d)
    (hrec : Security.lookupA st.files p = some rec)
    (hnm : h rec.content ≠ "missing")
    (hmm : h rec.content ≠ d)
    (hfresh : ∀ f ∈ st.backups.files,
      f.name ≠ Security.baseName p ++ "." ++ ck.stamp ++ ".bak")
    (hmt : ∀ f ∈ st.backups.files, f.mtime < rec.mtime)
    (hnd : (st.backups.files.map (fun f => f.name)).Nodup) :
    (⟨Security.baseName p ++ "." ++ ck.stamp ++ ".bak", rec.mtime, rec.content⟩
        : Security.BFile)
      ∈ (Security.verify_files h ck st).2.2.backups.files ∧
    (∀ f ∈ (Security.verify_files h ck st).2.2.backups.files,
      Security.globMatch (Security.baseName p) f.name = true →
      f = ⟨Security.baseName p ++ "." ++ ck.stamp ++ ".bak", rec.mtime, rec.content⟩ ∨
      f ∈ st.backups.files) ∧
    ((Security.verify_files h ck st).2.2.backups.files.filter
      (fun f => Security.globMatch (Security.baseName p) f.name)).length ≤ 5 ∧
    Security.lookupA (Security.verify_files h ck st).2.1 p
      = some ⟨some (h rec.content), some rec.content.utf8ByteSize, ck.iso⟩ ∧
    (p ++ ": " ++ ("Checksum-Abweichung erkannt – Datei gesichert unter "
      ++ (Security.backupDirPath ++ "/"
        ++ (Security.baseName p ++ "." ++ ck.stamp ++ ".bak"))))
      ∈ (Security.verify_files h ck st).1.issues ∧
    (Security.backupDirPath ++ "/"
        ++ (Security.baseName p ++ "." ++ ck.stamp ++ ".bak"))
      ∈ (Security.verify_files h ck st).1.backups ∧
    (Security.verify_files h ck st).1.status = "attention" := by
  obtain ⟨pre, post, hsens⟩ := List.append_of_mem hp
  have hndS := sensitive_nodup
  rw [hsens] at hndS
  have hpd := List.nodup_append.mp hndS
  have hppre : p ∉ pre := fun hmem => hpd.2.2 hmem (List.mem_cons_self p post)
  have hppost : p ∉ post := (List.nodup_cons.mp hpd.2.1).1
  have hqfacts : ∀ q, q ∈ Security.SENSITIVE_FILES → q ≠ p → q ≠ p ∧
      ¬ ((Security.baseName p).data ++ [Char.ofNat 46])
          <+: ((Security.baseName q).data ++ [Char.ofNat 46]) ∧
      ¬ ((Security.baseName q).data ++ [Char.ofNat 46])
          <+: ((Security.baseName p).data ++ [Char.ofNat 46]) := by
    intro q hqS hqp
    exact ⟨hqp, sensitive_stems_incomparable p hp q hqS (Ne.symm hqp),
      sensitive_stems_incomparable q hqS p hp hqp⟩
  have hqpre : ∀ q ∈ pre, q ≠ p ∧
      ¬ ((Security.baseName p).data ++ [Char.ofNat 46])
          <+: ((Security.baseName q).data ++ [Char.ofNat 46]) ∧
      ¬ ((Security.baseName q).data ++ [Char.ofNat 46])
          <+: ((Security.baseName p).data ++ [Char.ofNat 46]) := by
    intro q hq
    have hqS : q ∈ Security.SENSITIVE_FILES := by
      rw [hsens]; exact List.mem_append_left _ hq
    exact hqfacts q hqS (fun he => hppre (he ▸ hq))
  have hqpost : ∀ q ∈ post, q ≠ p ∧
      ¬ ((Security.baseName p).data ++ [Char.ofNat 46])
          <+: ((Security.baseName q).data ++ [Char.ofNat 46]) ∧
      ¬ ((Security.baseName q).data ++ [Char.ofNat 46])
          <+: ((Security.baseName p).data ++ [Char.ofNat 46]) := by
    intro q hq
    have hqS : q ∈ Security.SENSITIVE_FILES := by
      rw [hsens]; exact List.mem_append_right _ (List.mem_cons_of_mem p hq)
    exact hqfacts q hqS (fun he => hppost (he ▸ hq))
  -- reduce verify_files to the finishing stage of the loop
  rw [verify_files_eq_finish h ck st m hman]
  obtain ⟨hsec, hback, hfilesF, hsum⟩ :=
    verifyFinish_parts h ck m (Security.verifyLoop h ck m st)
  rw [hsec, hback, hsum]
  -- decompose the loop around p
  have hVL : Security.verifyLoop h ck m st
      = List.foldl (fun acc path => Security.processFile h ck path acc)
          (Security.processFile h ck p
            (List.foldl (fun acc path => Security.processFile h ck path acc)
              { sec := m.files,
                summary := { status := "ok", timestamp := ck.iso }, st := st } pre))
          post := by
    unfold Security.verifyLoop
    rw [hsens, List.foldl_append, List.foldl_cons]
  rw [hVL]
  -- frame facts over the files processed before p
  obtain ⟨f1, f2, f3, ⟨t1, ht1⟩, ⟨u1, hu1⟩, f6, f7, f8, f9⟩ :=
    foldProcess_frame h ck p pre
      { sec := m.files, summary := { status := "ok", timestamp := ck.iso }, st := st }
      hqpre
  set a1 := List.foldl (fun acc path => Security.processFile h ck path acc)
      { sec := m.files,
        summary := { status := "ok", timestamp := ck.iso }, st := st } pre with ha1
  have hlkp : Security.lookupA a1.sec p = some entry0 := by rw [f1]; exact hentry
  have hfiles1 : a1.st.files = st.files := f2
  have hlkfiles : Security.lookupA a1.st.files p = some rec := by
    rw [hfiles1]; exact hrec
  have hhash : Security.hash_file h a1.st p = h rec.content := by
    unfold Security.hash_file
    rw [hlkfiles]
  have hsize : Security.file_size a1.st p = some rec.content.utf8ByteSize := by
    unfold Security.file_size
    rw [hlkfiles]
    rfl
  have hts1 : a1.summary.timestamp = ck.iso := f6
  have hnames1 : ∀ f ∈ a1.st.backups.files,
      f.name ≠ Security.baseName p ++ "." ++ ck.stamp ++ ".bak" := by
    intro f hf heq
    rcases f8 f hf with ⟨q, hq, hqname⟩ | ⟨g, hg, hgname⟩
    · obtain ⟨hq1, hq2, hq3⟩ := hqpre q hq
      refine globMatch_not_both f.name hq2 hq3 ?_ ?_
      · rw [heq]; exact globMatch_self _ _
      · rw [hqname]; exact globMatch_self _ _
    · exact hfresh g hg (by rw [hgname, heq])
  have hnd1 : (a1.st.backups.files.map (fun f => f.name)).Nodup := f9 hnd
  -- the create/prune computation for p itself
  have hfid : a1.st.backups.files.filter
      (fun f => decide (f.name ≠ Security.baseName p ++ "." ++ ck.stamp ++ ".bak"))
      = a1.st.backups.files :=
    List.filter_eq_self.mpr (fun f hf => by simp [hnames1 f hf])
  have hcb : Security.create_backup ck a1.st p
      = (Security.backupDirPath ++ "/"
          ++ (Security.baseName p ++ "." ++ ck.stamp ++ ".bak"),
         { a1.st with backups := ⟨true,
            ⟨Security.baseName p ++ "." ++ ck.stamp ++ ".bak", rec.mtime, rec.content⟩
              :: a1.st.backups.files⟩ }) := by
    simp only [Security.create_backup, hlkfiles]
    rw [hfid]
  -- facts about the matching backups before the pass
  have hpfil1 : a1.st.backups.files.filter
      (fun f => Security.globMatch (Security.baseName p) f.name)
      = st.backups.files.filter
        (fun f => Security.globMatch (Security.baseName p) f.name) := f3
  have hsorted_mem : ∀ x ∈ Security.sortByMtimeDesc
      (st.backups.files.filter
        (fun f => Security.globMatch (Security.baseName p) f.name)),
      x.mtime ≤ rec.mtime := by
    intro x hx
    have hx2 : x ∈ st.backups.files.filter
        (fun f => Security.globMatch (Security.baseName p) f.name) :=
      (sortByMtimeDesc_perm _).mem_iff.mp hx
    exact le_of_lt (hmt x (List.mem_of_mem_filter hx2))
  have hnewmatch : Security.globMatch (Security.baseName p)
      (Security.baseName p ++ "." ++ ck.stamp ++ ".bak") = true :=
    globMatch_self _ _
  have hpin : (⟨Security.baseName p ++ "." ++ ck.stamp ++ ".bak", rec.mtime, rec.content⟩
        :: a1.st.backups.files).filter
        (fun f => Security.globMatch (Security.baseName p) f.name)
      = (⟨Security.baseName p ++ "." ++ ck.stamp ++ ".bak", rec.mtime, rec.content⟩
          : Security.BFile)
        :: st.backups.files.filter
          (fun f => Security.globMatch (Security.baseName p) f.name) := by
    rw [List.filter_cons]
    simp only [hnewmatch, if_pos]
    rw [hpfil1]
  have hsort : Security.sortByMtimeDesc
      ((⟨Security.baseName p ++ "." ++ ck.stamp ++ ".bak", rec.mtime, rec.content⟩
          : Security.BFile)
        :: st.backups.files.filter
          (fun f => Security.globMatch (Security.baseName p) f.name))
      = (⟨Security.baseName p ++ "." ++ ck.stamp ++ ".bak", rec.mtime, rec.content⟩
          : Security.BFile)
        :: Security.sortByMtimeDesc
          (st.backups.files.filter
            (fun f => Security.globMatch (Security.baseName p) f.name)) := by
    show Security.insertByMtimeDesc _ _ = _
    exact insertByMtimeDesc_eq_cons hsorted_mem
  have hprune : Security.prune_old_backups
      { a1.st with backups := ⟨true,
         ⟨Security.baseName p ++ "." ++ ck.stamp ++ ".bak", rec.mtime, rec.content⟩
           :: a1.st.backups.files⟩ }
      (Security.baseName p) 5
      = ((Security.sortByMtimeDesc
            (st.backups.files.filter
              (fun f => Security.globMatch (Security.baseName p) f.name))).drop 4,
         { a1.st with backups := ⟨true,
            (⟨Security.baseName p ++ "." ++ ck.stamp ++ ".bak", rec.mtime, rec.content⟩
               :: a1.st.backups.files).filter
              (fun f => !((((Security.sortByMtimeDesc
                  (st.backups.files.filter
                    (fun f => Security.globMatch (Security.baseName p) f.name))).drop 4).map
                (fun f => f.name)).contains f.name))⟩ }) := by
    simp only [Security.prune_old_backups]
    rw [hpin, hsort]
    simp only [List.drop_succ_cons]
    simp
  have hstep : Security.processFile h ck p a1
      = { sec := Security.setA a1.sec p
            ⟨some (h rec.content), some rec.content.utf8ByteSize, a1.summary.timestamp⟩,
          summary :=
            { status := "attention",
              verified := a1.summary.verified + 1,
              issues := a1.summary.issues
                ++ [p ++ ": " ++ ("Checksum-Abweichung erkannt – Datei gesichert unter "
                  ++ (Security.backupDirPath ++ "/"
                    ++ (Security.baseName p ++ "." ++ ck.stamp ++ ".bak")))],
              backups := a1.summary.backups
                ++ [Security.backupDirPath ++ "/"
                  ++ (Security.baseName p ++ "." ++ ck.stamp ++ ".bak")],
              size_alerts := a1.summary.size_alerts,
              pruned_backups := a1.summary.pruned_backups
                ++ ((Security.sortByMtimeDesc
                    (st.backups.files.filter
                      (fun f => Security.globMatch (Security.baseName p) f.name))).drop 4).map
                    (fun f => Security.backupDirPath ++ "/" ++ f.name),
              restore_points := a1.summary.restore_points,
              restore_issues := a1.summary.restore_issues,
              updated_manifest := true,
              timestamp := a1.summary.timestamp },
          st := { a1.st with backups := ⟨true,
            (⟨Security.baseName p ++ "." ++ ck.stamp ++ ".bak", rec.mtime, rec.content⟩
               :: a1.st.backups.files).filter
              (fun f => !((((Security.sortByMtimeDesc
                  (st.backups.files.filter
                    (fun f => Security.globMatch (Security.baseName p) f.name))).drop 4).map
                (fun f => f.name)).contains f.name))⟩ } } := by
    simp only [Security.processFile, hlkp, Option.getD_some, hhash, hsize, hd]
    rw [if_neg hnm]
    rw [if_pos hmm]
    rw [hcb]
    rw [hprune]
  -- frame facts over the files processed after p
  obtain ⟨g1, g2, g3, ⟨t2, ht2⟩, ⟨u2, hu2⟩, g6, g7, g8, g9⟩ :=
    foldProcess_frame h ck p post (Security.processFile h ck p a1) hqpost
  -- facts about the state right after p was processed
  have hremnames : ∀ g ∈ (Security.sortByMtimeDesc
      (st.backups.files.filter
        (fun f => Security.globMatch (Security.baseName p) f.name))).drop 4,
      g.name ≠ Security.baseName p ++ "." ++ ck.stamp ++ ".bak" := by
    intro g hg
    have hgP : g ∈ st.backups.files.filter
        (fun f => Security.globMatch (Security.baseName p) f.name) :=
      (sortByMtimeDesc_perm _).mem_iff.mp (List.mem_of_mem_drop hg)
    exact hfresh g (List.mem_of_mem_filter hgP)
  have hpnot_new : (!((((Security.sortByMtimeDesc
      (st.backups.files.filter
        (fun f => Security.globMatch (Security.baseName p) f.name))).drop 4).map
      (fun f => f.name)).contains
        (Security.baseName p ++ "." ++ ck.stamp ++ ".bak"))) = true := by
    cases hc : (((Security.sortByMtimeDesc
        (st.backups.files.filter
          (fun f => Security.globMatch (Security.baseName p) f.name))).drop 4).map
        (fun f => f.name)).contains
          (Security.baseName p ++ "." ++ ck.stamp ++ ".bak") with
    | false => rfl
    | true =>
        obtain ⟨g, hg, hgname⟩ := List.mem_map.mp (contains_iff_mem.mp hc)
        exact absurd hgname (hremnames g hg)
  have hfil2 : (Security.processFile h ck p a1).st.backups.files.filter
      (fun f => Security.globMatch (Security.baseName p) f.name)
      = (⟨Security.baseName p ++ "." ++ ck.stamp ++ ".bak", rec.mtime, rec.content⟩
          : Security.BFile)
        :: (st.backups.files.filter
            (fun f => Security.globMatch (Security.baseName p) f.name)).filter
          (fun f => !((((Security.sortByMtimeDesc
              (st.backups.files.filter
                (fun f => Security.globMatch (Security.baseName p) f.name))).drop 4).map
            (fun f => f.name)).contains f.name)) := by
    simp only [hstep]
    rw [filter_comm_bool, hpin, List.filter_cons]
    simp only [List.filter_cons]
    simp
    intro hmem
    obtain ⟨g, hg, hgname⟩ := List.mem_map.mp (List.mem_of_mem_drop hmem)
    exact hfresh g (List.mem_of_mem_filter
      ((sortByMtimeDesc_perm _).mem_iff.mp hg)) hgname
  -- the entry stored for p survives the rest of the loop
  have hsec2 : Security.lookupA (Security.processFile h ck p a1).sec p
      = some ⟨some (h rec.content), some rec.content.utf8ByteSize, ck.iso⟩ := by
    simp only [hstep]
    rw [lookupA_setA_eq, hts1]
  have hsec3 : Security.lookupA
      (List.foldl (fun acc path => Security.processFile h ck path acc)
        (Security.processFile h ck p a1) post).sec p
      = some ⟨some (h rec.content), some rec.content.utf8ByteSize, ck.iso⟩ := by
    rw [g1, hsec2]
  -- the recorded issue and backup survive the rest of the loop
  have hmsg : (p ++ ": " ++ ("Checksum-Abweichung erkannt – Datei gesichert unter "
      ++ (Security.backupDirPath ++ "/"
        ++ (Security.baseName p ++ "." ++ ck.stamp ++ ".bak"))))
      ∈ (List.foldl (fun acc path => Security.processFile h ck path acc)
        (Security.processFile h ck p a1) post).summary.issues := by
    rw [ht2]
    refine List.mem_append_left _ ?_
    simp only [hstep]
    exact List.mem_append_right _ (List.mem_singleton.mpr rfl)
  have hbak : (Security.backupDirPath ++ "/"
      ++ (Security.baseName p ++ "." ++ ck.stamp ++ ".bak"))
      ∈ (List.foldl (fun acc path => Security.processFile h ck path acc)
        (Security.processFile h ck p a1) post).summary.backups := by
    rw [hu2]
    refine List.mem_append_left _ ?_
    simp only [hstep]
    exact List.mem_append_right _ (List.mem_singleton.mpr rfl)
  have hne3 : (List.foldl (fun acc path => Security.processFile h ck path acc)
      (Security.processFile h ck p a1) post).summary.issues ≠ [] :=
    List.ne_nil_of_mem hmsg
  refine ⟨?_, ?_, ?_, hsec3, ?_, ?_, ?_⟩
  · have h1 : (⟨Security.baseName p ++ "." ++ ck.stamp ++ ".bak", rec.mtime, rec.content⟩
        : Security.BFile)
        ∈ (List.foldl (fun acc path => Security.processFile h ck path acc)
          (Security.processFile h ck p a1) post).st.backups.files.filter
          (fun f => Security.globMatch (Security.baseName p) f.name) := by
      rw [g3, hfil2]
      exact List.mem_cons_self _ _
    exact List.mem_of_mem_filter h1
  · intro f hf hmatch
    have hf2 : f ∈ (List.foldl (fun acc path => Security.processFile h ck path acc)
        (Security.processFile h ck p a1) post).st.backups.files.filter
        (fun f => Security.globMatch (Security.baseName p) f.name) :=
      List.mem_filter.mpr ⟨hf, hmatch⟩
    rw [g3, hfil2] at hf2
    rcases List.mem_cons.mp hf2 with heq | hf3
    · exact Or.inl heq
    · exact Or.inr (List.mem_of_mem_filter (List.mem_of_mem_filter hf3))
  · rw [g3, hfil2]
    have hndP0 : ((st.backups.files.filter
        (fun f => Security.globMatch (Security.baseName p) f.name)).map
        (fun f => f.name)).Nodup :=
      ((List.filter_sublist st.backups.files).map
        (fun f : Security.BFile => f.name)).nodup hnd
    have hkp := keep_perm (st.backups.files.filter
      (fun f => Security.globMatch (Security.baseName p) f.name)) 4 hndP0
    rw [List.length_cons, hkp.length_eq]
    have := List.length_take_le 4 (Security.sortByMtimeDesc
      (st.backups.files.filter
        (fun f => Security.globMatch (Security.baseName p) f.name)))
    omega
  · rw [(finalizeSummary_lists _ _ _).1]
    exact hmsg
  · rw [(finalizeSummary_lists _ _ _).2]
    exact hbak
  · exact finalizeSummary_attention _ _ _ hne3


/-- Witness for C1 at a concrete state: `todo.txt` was mutated after its
digest was recorded; the pass backs it up and flags attention. -/
theorem C1_change_event_witness :
    (⟨Security.baseName "todo.txt" ++ "." ++ Wit.ckW.stamp ++ ".bak", 90, "new"⟩
        : Security.BFile)
      ∈ (Security.verify_files Wit.hashW Wit.ckW Wit.c1St).2.2.backups.files ∧
    (∀ f ∈ (Security.verify_files Wit.hashW Wit.ckW Wit.c1St).2.2.backups.files,
      Security.globMatch (Security.baseName "todo.txt") f.name = true →
      f = ⟨Security.baseName "todo.txt" ++ "." ++ Wit.ckW.stamp ++ ".bak", 90, "new"⟩ ∨
      f ∈ Wit.c1St.backups.files) ∧
    ((Security.verify_files Wit.hashW Wit.ckW Wit.c1St).2.2.backups.files.filter
      (fun f => Security.globMatch (Security.baseName "todo.txt") f.name)).length ≤ 5 ∧
    Security.lookupA (Security.verify_files Wit.hashW Wit.ckW Wit.c1St).2.1 "todo.txt"
      = some ⟨some (Wit.hashW "new"), some ("new" : String).utf8ByteSize, Wit.ckW.iso⟩ ∧
    ("todo.txt" ++ ": " ++ ("Checksum-Abweichung erkannt – Datei gesichert unter "
      ++ (Security.backupDirPath ++ "/"
        ++ (Security.baseName "todo.txt" ++ "." ++ Wit.ckW.stamp ++ ".bak"))))
      ∈ (Security.verify_files Wit.hashW Wit.ckW Wit.c1St).1.issues ∧
    (Security.backupDirPath ++ "/"
        ++ (Security.baseName "todo.txt" ++ "." ++ Wit.ckW.stamp ++ ".bak"))
      ∈ (Security.verify_files Wit.hashW Wit.ckW Wit.c1St).1.backups ∧
    (Security.verify_files Wit.hashW Wit.ckW Wit.c1St).1.status = "attention" :=
  C1_change_event Wit.hashW Wit.ckW Wit.c1St Wit.c1M "todo.txt"
    { sha256 := some "#old", size := some 3, last_checked := "T0" } "#old"
    { content := "new", mtime := 90 }
    (by decide) rfl (by decide) rfl (by decide) (by decide) (by decide)
    (by decide) (by decide) (by decide)

/-! ## C6: manifest write avoidance -/

/-- `_create_backup` only touches the backup directory. -/
theorem create_backup_st_frame (ck : Security.Clock) (st : Security.St) (q : String) :
    (Security.create_backup ck st q).2.files = st.files ∧
    (Security.create_backup ck st q).2.manifest = st.manifest := by
  simp only [Security.create_backup]
  exact ⟨trivial, trivial⟩

/-- `_prune_old_backups` only touches the backup directory. -/
theorem prune_st_frame (st : Security.St) (n : String) (k : Nat) :
    (Security.prune_old_backups st n k).2.files = st.files ∧
    (Security.prune_old_backups st n k).2.manifest = st.manifest := by
  simp only [Security.prune_old_backups]
  split <;> exact ⟨rfl, rfl⟩

/-- One loop iteration leaves the working files and the persisted manifest
alone (only the backup directory can change). -/
theorem processFile_st_frame (h : String → String) (ck : Security.Clock)
    (q : String) (a : Security.PassSt) :
    (Security.processFile h ck q a).st.files = a.st.files ∧
    (Security.processFile h ck q a).st.manifest = a.st.manifest := by
  simp only [Security.processFile]
  split
  · exact ⟨rfl, rfl⟩
  · split
    · exact ⟨rfl, rfl⟩
    · split
      · refine ⟨?_, ?_⟩
        · rw [(prune_st_frame _ _ _).1, (create_backup_st_frame _ _ _).1]
        · rw [(prune_st_frame _ _ _).2, (create_backup_st_frame _ _ _).2]
      · split <;> exact ⟨rfl, rfl⟩

/-- One loop iteration keeps the section entries of the other paths. -/
theorem processFile_sec_ne' (h : String → String) (ck : Security.Clock)
    (q : String) (a : Security.PassSt) (r : String) (hrq : r ≠ q) :
    Security.lookupA (Security.processFile h ck q a).sec r
      = Security.lookupA a.sec r := by
  simp only [Security.processFile]
  split
  · exact lookupA_setA_ne a.sec q r _ hrq
  · split
    · exact lookupA_setA_ne a.sec q r _ hrq
    · split
      · exact lookupA_setA_ne a.sec q r _ hrq
      · split <;> exact lookupA_setA_ne a.sec q r _ hrq

/-- One loop iteration sets the dirty flag exactly when it was already set
or the processed path takes a dirtying branch. -/
theorem processFile_dirty (h : String → String) (ck : Security.Clock)
    (q : String) (a : Security.PassSt) :
    ((Security.processFile h ck q a).summary.updated_manifest = true ↔
      (a.summary.updated_manifest = true ∨
        Security.entryDirty h a.st a.sec q = true)) := by
  simp only [Security.processFile, Security.entryDirty]
  split
  · simp
  · split
    · simp
    · split
      · simp
      · split <;> simp

/-- The verification loop leaves the working files and the persisted
manifest alone. -/
theorem foldProcess_st_frame (h : String → String) (ck : Security.Clock) :
    ∀ (qs : List String) (a : Security.PassSt),
    (qs.foldl (fun acc path => Security.processFile h ck path acc) a).st.files
        = a.st.files ∧
    (qs.foldl (fun acc path => Security.processFile h ck path acc) a).st.manifest
        = a.st.manifest
  | [], _ => ⟨rfl, rfl⟩
  | q :: qs, a => by
      rw [List.foldl_cons]
      have hih := foldProcess_st_frame h ck qs (Security.processFile h ck q a)
      have hpf := processFile_st_frame h ck q a
      exact ⟨hih.1.trans hpf.1, hih.2.trans hpf.2⟩

/-- Dirty-flag characterisation of the whole loop, relative to the pre-pass
state: the flag ends up set exactly when it started set or some processed
path is dirty in the pre-pass state. -/
theorem foldProcess_dirty (h : String → String) (ck : Security.Clock)
    (sec0 : List (String × Security.Entry)) (st0 : Security.St) :
    ∀ (qs : List String) (a : Security.PassSt), qs.Nodup →
    a.st.files = st0.files →
    (∀ q ∈ qs, Security.lookupA a.sec q = Security.lookupA sec0 q) →
    ((qs.foldl (fun acc path => Security.processFile h ck path acc)
        a).summary.updated_manifest = true ↔
      (a.summary.updated_manifest = true ∨
        ∃ q ∈ qs, Security.entryDirty h st0 sec0 q = true)) := by
  intro qs
  induction qs with
  | nil => intro a _ _ _; simp
  | cons q qs ih =>
      intro a hnd hfiles hlook
      rw [List.foldl_cons]
      have hnd' := List.nodup_cons.mp hnd
      have hdq : Security.entryDirty h a.st a.sec q
          = Security.entryDirty h st0 sec0 q := by
        unfold Security.entryDirty Security.hash_file
        rw [hfiles, hlook q (List.mem_cons_self q qs)]
      have hrec := ih (Security.processFile h ck q a) hnd'.2
        (by rw [(processFile_st_frame h ck q a).1, hfiles])
        (fun r hr => by
          rw [processFile_sec_ne' h ck q a r (fun he => hnd'.1 (he ▸ hr)),
            hlook r (List.mem_cons_of_mem q hr)])
      rw [hrec, processFile_dirty h ck q a, hdq]
      simp only [List.mem_cons]
      constructor
      · rintro ((h1 | h1) | ⟨r, hr, hdr⟩)
        · exact Or.inl h1
        · exact Or.inr ⟨q, Or.inl rfl, h1⟩
        · exact Or.inr ⟨r, Or.inr hr, hdr⟩
      · rintro (h1 | ⟨r, hr | hr, hdr⟩)
        · exact Or.inl (Or.inl h1)
        · exact Or.inl (Or.inr (hr ▸ hdr))
        · exact Or.inr ⟨r, hr, hdr⟩

/-- Finalising the summary keeps the dirty flag. -/
theorem finalizeSummary_upd (h : String → String) (st : Security.St)
    (p : Security.PassSt) :
    (Security.finalizeSummary h st p).updated_manifest
      = p.summary.updated_manifest := by
  simp only [Security.finalizeSummary]
  split <;> split <;> first | rfl | (split <;> rfl)

/-- Persistence behaviour of the finishing stage in both flag states. -/
theorem verifyFinish_persist (h : String → String) (ck : Security.Clock)
    (m : Security.Manifest) (p : Security.PassSt) :
    (p.summary.updated_manifest = false →
      (Security.verifyFinish h ck m p).2.2 = p.st) ∧
    (p.summary.updated_manifest = true →
      (Security.verifyFinish h ck m p).2.2.manifest
        = some { m with files := p.sec, updated_at := ck.iso }) := by
  unfold Security.verifyFinish
  constructor
  · intro hF
    simp only [hF]
    rfl
  · intro hT
    simp only [hT]
    rfl

/-- C6: the dirty flag — hence the manifest write — is set exactly when some
protected path takes a dirtying branch (file missing, first observation, or
digest mismatch) in the pre-pass state; when none does, the manifest on disk
is exactly the pre-pass one; when one does, the stamped in-memory section is
persisted.  The digest-match branch restamps `last_checked` (and refreshes
the size) of the in-memory entry without triggering a write, so persistence
tracks the three dirtying branches, not entry mutation. -/
theorem C6_write_avoidance (h : String → String) (ck : Security.Clock)
    (st : Security.St) (m : Security.Manifest) (hman : st.manifest = some m) :
    ((Security.verify_files h ck st).1.updated_manifest = true ↔
      ∃ q ∈ Security.SENSITIVE_FILES, Security.entryDirty h st m.files q = true) ∧
    ((∀ q ∈ Security.SENSITIVE_FILES, Security.entryDirty h st m.files q = false) →
      (Security.verify_files h ck st).2.2.manifest = some m) ∧
    ((∃ q ∈ Security.SENSITIVE_FILES, Security.entryDirty h st m.files q = true) →
      (Security.verify_files h ck st).2.2.manifest
        = some { m with files := (Security.verify_files h ck st).2.1,
                        updated_at := ck.iso }) := by
  rw [verify_files_eq_finish h ck st m hman]
  have hdirty : (Security.verifyLoop h ck m st).summary.updated_manifest = true ↔
      ∃ q ∈ Security.SENSITIVE_FILES, Security.entryDirty h st m.files q = true := by
    unfold Security.verifyLoop
    rw [foldProcess_dirty h ck m.files st Security.SENSITIVE_FILES _ sensitive_nodup
      rfl (fun q hq => rfl)]
    simp
  have hparts := verifyFinish_parts h ck m (Security.verifyLoop h ck m st)
  have hpersist := verifyFinish_persist h ck m (Security.verifyLoop h ck m st)
  refine ⟨?_, ?_, ?_⟩
  · rw [hparts.2.2.2, finalizeSummary_upd]
    exact hdirty
  · intro hno
    have hF : (Security.verifyLoop h ck m st).summary.updated_manifest = false := by
      cases hb : (Security.verifyLoop h ck m st).summary.updated_manifest
      · rfl
      · obtain ⟨q, hq, hdq⟩ := hdirty.mp hb
        rw [hno q hq] at hdq
        exact absurd hdq (by simp)
    rw [hpersist.1 hF]
    unfold Security.verifyLoop
    rw [(foldProcess_st_frame h ck Security.SENSITIVE_FILES _).2]
    exact hman
  · intro hex
    rw [hparts.1, hpersist.2 (hdirty.mpr hex)]

/-- Witness for C6 at a concrete all-clean state. -/
theorem C6_write_avoidance_witness :
    ((Security.verify_files Wit.hashW Wit.ckW Wit.c6St).1.updated_manifest = true ↔
      ∃ q ∈ Security.SENSITIVE_FILES,
        Security.entryDirty Wit.hashW Wit.c6St Wit.c6M.files q = true) ∧
    ((∀ q ∈ Security.SENSITIVE_FILES,
        Security.entryDirty Wit.hashW Wit.c6St Wit.c6M.files q = false) →
      (Security.verify_files Wit.hashW Wit.ckW Wit.c6St).2.2.manifest
        = some Wit.c6M) ∧
    ((∃ q ∈ Security.SENSITIVE_FILES,
        Security.entryDirty Wit.hashW Wit.c6St Wit.c6M.files q = true) →
      (Security.verify_files Wit.hashW Wit.ckW Wit.c6St).2.2.manifest
        = some { Wit.c6M with
            files := (Security.verify_files Wit.hashW Wit.ckW Wit.c6St).2.1,
            updated_at := Wit.ckW.iso }) :=
  C6_write_avoidance Wit.hashW Wit.ckW Wit.c6St Wit.c6M rfl

set_option maxHeartbeats 1000000 in
/-- Counterexample to C6 as stated: a pass in which every digest matches
fires no dirtying branch, so the flag stays false and the on-disk manifest
is exactly the old one — yet the in-memory entries *were* mutated (their
`last_checked` was restamped), so "rewritten iff at least one manifest
entry was mutated" does not hold. -/
theorem C6_write_avoidance_counterexample :
    (Security.verify_files Wit.hashW Wit.ckW Wit.c6St).1.updated_manifest = false ∧
    (Security.verify_files Wit.hashW Wit.ckW Wit.c6St).2.2.manifest
      = some Wit.c6M ∧
    (Security.verify_files Wit.hashW Wit.ckW Wit.c6St).2.1 ≠ Wit.c6M.files := by
  refine ⟨?_, ?_, ?_⟩ <;> decide

/-! ## C8: structure repair -/

/-- The archive-database step only touches `data/archive.db`. -/
theorem ensure_archive_frame (dbInit : Option String) (mt : Nat) (fs : Struct.FS)
    (rep : List String) (q : String) (hq : q ≠ Struct.ARCHIVE_DB_PATH) :
    Security.lookupA (Struct.ensure_archive_database dbInit mt fs rep).1.files q
      = Security.lookupA fs.files q ∧
    ((q ∈ (Struct.ensure_archive_database dbInit mt fs rep).2) ↔ q ∈ rep) := by
  unfold Struct.ensure_archive_database
  split
  · exact ⟨rfl, Iff.rfl⟩
  · cases dbInit with
    | none => exact ⟨rfl, Iff.rfl⟩
    | some c =>
        refine ⟨lookupA_setA_ne fs.files Struct.ARCHIVE_DB_PATH q _ hq, ?_⟩
        simp [List.mem_append, hq]

/-- The settings check can add only the settings path to
`repaired_paths`. -/
theorem esd_rep_frame (loads : String → Struct.LoadResult)
    (dumps : Val.JObj → String) (fl : String → Option ℚ) (il : String → Option Int)
    (text : String) (rep : List String) (o : Option String) (rep2 : List String)
    (h : Struct.ensure_settings_defaults loads dumps fl il text rep = .ok (o, rep2))
    (q : String) (hq : q ≠ Struct.SETTINGS_PATH) :
    (q ∈ rep2 ↔ q ∈ rep) := by
  unfold Struct.ensure_settings_defaults at h
  cases hl : loads text with
  | decodeError =>
      simp only [hl, Except.ok.injEq, Prod.mk.injEq] at h
      rw [← h.2]
      split
      · exact Iff.rfl
      · simp [List.mem_append, hq]
  | obj d isDict =>
      simp only [hl] at h
      split at h
      · simp only [Except.ok.injEq, Prod.mk.injEq] at h
        rw [← h.2]
      · simp only [Except.ok.injEq, Prod.mk.injEq] at h
        rw [← h.2]
        split
        · exact Iff.rfl
        · simp [List.mem_append, hq]
  | typeError =>
      simp only [hl] at h
      exact absurd h (by simp)

/-- The required-files loop on a list without `settings.json`: it never
raises, leaves the folders alone, touches exactly the listed paths,
creates the missing ones from their templates (recording them as
repaired), and leaves the present ones untouched and unrecorded. -/
theorem ensureFiles_no_settings (loads : String → Struct.LoadResult)
    (dumps : Val.JObj → String) (fl : String → Option ℚ) (il : String → Option Int)
    (mt : Nat) :
    ∀ (ts : List (String × String)),
    (∀ pt ∈ ts, Security.baseName pt.1 ≠ "settings.json") →
    ∀ (fs : Struct.FS) (rep : List String),
    ∃ r, Struct.ensureFiles loads dumps fl il mt ts fs rep = .ok r ∧
      r.1.folders = fs.folders ∧
      (∀ q, (∀ pt ∈ ts, pt.1 ≠ q) →
        Security.lookupA r.1.files q = Security.lookupA fs.files q ∧
        ((q ∈ r.2) ↔ q ∈ rep)) ∧
      ((ts.map Prod.fst).Nodup →
        ∀ pt ∈ ts,
          (Security.lookupA fs.files pt.1 = none →
            Security.lookupA r.1.files pt.1 = some ⟨pt.2, mt⟩ ∧ pt.1 ∈ r.2) ∧
          (∀ c, Security.lookupA fs.files pt.1 = some c →
            Security.lookupA r.1.files pt.1 = some c ∧
              ((pt.1 ∈ r.2) ↔ pt.1 ∈ rep))) := by
  intro ts
  induction ts with
  | nil =>
      intro _ fs rep
      exact ⟨(fs, rep), rfl, rfl, fun q _ => ⟨rfl, Iff.rfl⟩,
        fun _ pt hpt => absurd hpt (List.not_mem_nil pt)⟩
  | cons pt0 ts ih =>
      intro hns fs rep
      obtain ⟨p, tp⟩ := pt0
      have hbase : Security.baseName p ≠ "settings.json" :=
        hns (p, tp) (List.mem_cons_self _ _)
      have hns' : ∀ pt ∈ ts, Security.baseName pt.1 ≠ "settings.json" :=
        fun pt hpt => hns pt (List.mem_cons_of_mem _ hpt)
      cases hc : Security.lookupA fs.files p with
      | some c =>
          have hstep : Struct.ensureFiles loads dumps fl il mt ((p, tp) :: ts) fs rep
              = Struct.ensureFiles loads dumps fl il mt ts fs rep := by
            simp [Struct.ensureFiles, hc, hbase]
          obtain ⟨r, hr, hfold, hframe, hmem⟩ := ih hns' fs rep
          refine ⟨r, hstep.trans hr, hfold, ?_, ?_⟩
          · intro q hq
            exact hframe q (fun pt hpt => hq pt (List.mem_cons_of_mem _ hpt))
          · intro hnd pt hpt
            rw [List.map_cons] at hnd
            have hnd' := List.nodup_cons.mp hnd
            rcases List.mem_cons.mp hpt with heq | htl
            · subst heq
              constructor
              · intro h0
                rw [hc] at h0
                exact Option.noConfusion h0
              · intro c' hc'
                have hfr := hframe p (fun pt2 hpt2 hp2 =>
                  hnd'.1 (List.mem_map.mpr ⟨pt2, hpt2, hp2⟩))
                exact ⟨hfr.1.trans hc', hfr.2⟩
            · exact hmem hnd'.2 pt htl
      | none =>
          have hstep : Struct.ensureFiles loads dumps fl il mt ((p, tp) :: ts) fs rep
              = Struct.ensureFiles loads dumps fl il mt ts
                  { fs with files := Security.setA fs.files p ⟨tp, mt⟩ } (rep ++ [p]) := by
            simp [Struct.ensureFiles, hc, hbase]
          obtain ⟨r, hr, hfold, hframe, hmem⟩ :=
            ih hns' { fs with files := Security.setA fs.files p ⟨tp, mt⟩ } (rep ++ [p])
          refine ⟨r, hstep.trans hr, hfold, ?_, ?_⟩
          · intro q hq
            have hqp : p ≠ q := hq (p, tp) (List.mem_cons_self _ _)
            have hfr := hframe q (fun pt hpt => hq pt (List.mem_cons_of_mem _ hpt))
            constructor
            · rw [hfr.1]
              exact lookupA_setA_ne fs.files p q _ (Ne.symm hqp)
            · rw [hfr.2]
              simp [List.mem_append, Ne.symm hqp]
          · intro hnd pt hpt
            rw [List.map_cons] at hnd
            have hnd' := List.nodup_cons.mp hnd
            rcases List.mem_cons.mp hpt with heq | htl
            · subst heq
              constructor
              · intro _
                have hfr := hframe p (fun pt2 hpt2 hp2 =>
                  hnd'.1 (List.mem_map.mpr ⟨pt2, hpt2, hp2⟩))
                refine ⟨hfr.1.trans (lookupA_setA_eq fs.files p _), ?_⟩
                exact hfr.2.mpr (by simp)
              · intro c' hc'
                rw [hc] at hc'
                exact Option.noConfusion hc'
            · have hp1 : pt.1 ≠ p := fun he =>
                hnd'.1 (List.mem_map.mpr ⟨pt, htl, he⟩)
              have hmem' := hmem hnd'.2 pt htl
              have hlk : Security.lookupA
                  ({ fs with files := Security.setA fs.files p ⟨tp, mt⟩ } : Struct.FS).files pt.1
                  = Security.lookupA fs.files pt.1 :=
                lookupA_setA_ne fs.files p pt.1 _ hp1
              constructor
              · intro h0
                exact hmem'.1 (hlk.trans h0)
              · intro c' hc'
                have hres := hmem'.2 c' (hlk.trans hc')
                refine ⟨hres.1, ?_⟩
                rw [hres.2]
                simp [List.mem_append, hp1]

/-- Splitting a successful `ensure_structure` run that starts from a fresh
report into its settings step, its remaining-files loop, and its archive
step. -/
theorem ensure_structure_split (loads : String → Struct.LoadResult)
    (dumps : Val.JObj → String) (fl : String → Option ℚ) (il : String → Option Int)
    (dbInit : Option String) (mt : Nat) (fs : Struct.FS) (r : Struct.FS × List String)
    (hrun : Struct.ensure_structure loads dumps fl il dbInit mt fs [] = .ok r) :
    ∃ o rep2 fsmid r',
      Struct.ensure_settings_defaults loads dumps fl il
          (((Security.lookupA fs.files "data/settings.json").map
              (fun rec => rec.content)).getD (dumps Val.DEFAULT_SETTINGS))
          (if (Security.lookupA fs.files "data/settings.json").isSome
           then ([] : List String) else ["data/settings.json"]) = .ok (o, rep2) ∧
      (∀ q, q ≠ "data/settings.json" →
        Security.lookupA fsmid.files q = Security.lookupA fs.files q) ∧
      Security.lookupA fsmid.files "data/settings.json"
        = some (match o with
            | some nt => ⟨nt, mt⟩
            | none => (Security.lookupA fs.files "data/settings.json").getD
                ⟨dumps Val.DEFAULT_SETTINGS, mt⟩) ∧
      Struct.ensureFiles loads dumps fl il mt (Struct.FILE_TEMPLATES_REST dumps)
          fsmid rep2 = .ok r' ∧
      r = Struct.ensure_archive_database dbInit mt r'.1 r'.2 := by
  simp only [Struct.ensure_structure] at hrun
  rw [show Struct.FILE_TEMPLATES dumps
      = ("data/settings.json", dumps Val.DEFAULT_SETTINGS)
        :: Struct.FILE_TEMPLATES_REST dumps from rfl] at hrun
  generalize hREST : Struct.FILE_TEMPLATES_REST dumps = REST at hrun ⊢
  simp only [Struct.ensureFiles] at hrun
  rw [if_pos (show Security.baseName "data/settings.json" = "settings.json" by decide)]
    at hrun
  cases hc : Security.lookupA fs.files "data/settings.json" with
  | some t =>
      simp only [hc, Option.isSome_some, if_true, Option.map_some', Option.getD_some]
        at hrun ⊢
      cases hsd : Struct.ensure_settings_defaults loads dumps fl il t.content [] with
      | error e =>
          try simp only [hsd] at hrun
          exact absurd hrun (by simp)
      | ok orep =>
          obtain ⟨o, rep2⟩ := orep
          try simp only [hsd] at hrun
          cases o with
          | none =>
              cases hef : Struct.ensureFiles loads dumps fl il mt
                  REST
                  { fs with folders :=
                      Struct.REQUIRED_FOLDERS.foldl Struct.addFolder fs.folders }
                  rep2 with
              | error e => simp only [hef] at hrun; exact absurd hrun (by simp)
              | ok r' =>
                  simp only [hef, Except.ok.injEq] at hrun
                  exact ⟨none, rep2,
                    { fs with folders :=
                        Struct.REQUIRED_FOLDERS.foldl Struct.addFolder fs.folders },
                    r', rfl, fun q _ => rfl, hc, hef, hrun.symm⟩
          | some nt =>
              cases hef : Struct.ensureFiles loads dumps fl il mt
                  REST
                  { fs with
                      folders := Struct.REQUIRED_FOLDERS.foldl Struct.addFolder fs.folders,
                      files := Security.setA fs.files "data/settings.json" ⟨nt, mt⟩ }
                  rep2 with
              | error e => simp only [hef] at hrun; exact absurd hrun (by simp)
              | ok r' =>
                  simp only [hef, Except.ok.injEq] at hrun
                  exact ⟨some nt, rep2,
                    { fs with
                        folders := Struct.REQUIRED_FOLDERS.foldl Struct.addFolder fs.folders,
                        files := Security.setA fs.files "data/settings.json" ⟨nt, mt⟩ },
                    r', rfl,
                    fun q hq => lookupA_setA_ne fs.files "data/settings.json" q _ hq,
                    lookupA_setA_eq fs.files "data/settings.json" _, hef, hrun.symm⟩
  | none =>
      simp only [hc, Option.isSome_none, Bool.false_eq_true, if_false,
        Option.map_none', Option.map_some', Option.getD_none, Option.getD_some,
        lookupA_setA_eq, List.nil_append] at hrun ⊢
      cases hsd : Struct.ensure_settings_defaults loads dumps fl il
          (dumps Val.DEFAULT_SETTINGS) ["data/settings.json"] with
      | error e =>
          try simp only [hsd] at hrun
          exact absurd hrun (by simp)
      | ok orep =>
          obtain ⟨o, rep2⟩ := orep
          try simp only [hsd] at hrun
          cases o with
          | none =>
              cases hef : Struct.ensureFiles loads dumps fl il mt
                  REST
                  { fs with
                      folders := Struct.REQUIRED_FOLDERS.foldl Struct.addFolder fs.folders,
                      files := Security.setA fs.files "data/settings.json"
                        ⟨dumps Val.DEFAULT_SETTINGS, mt⟩ }
                  rep2 with
              | error e => simp only [hef] at hrun; exact absurd hrun (by simp)
              | ok r' =>
                  simp only [hef, Except.ok.injEq] at hrun
                  exact ⟨none, rep2,
                    { fs with
                        folders := Struct.REQUIRED_FOLDERS.foldl Struct.addFolder fs.folders,
                        files := Security.setA fs.files "data/settings.json"
                          ⟨dumps Val.DEFAULT_SETTINGS, mt⟩ },
                    r', rfl,
                    fun q hq => lookupA_setA_ne fs.files "data/settings.json" q _ hq,
                    lookupA_setA_eq fs.files "data/settings.json" _, hef, hrun.symm⟩
          | some nt =>
              cases hef : Struct.ensureFiles loads dumps fl il mt
                  REST
                  { fs with
                      folders := Struct.REQUIRED_FOLDERS.foldl Struct.addFolder fs.folders,
                      files := Security.setA
                        (Security.setA fs.files "data/settings.json"
                          ⟨dumps Val.DEFAULT_SETTINGS, mt⟩) "data/settings.json" ⟨nt, mt⟩ }
                  rep2 with
              | error e => simp only [hef] at hrun; exact absurd hrun (by simp)
              | ok r' =>
                  simp only [hef, Except.ok.injEq] at hrun
                  refine ⟨some nt, rep2,
                    { fs with
                        folders := Struct.REQUIRED_FOLDERS.foldl Struct.addFolder fs.folders,
                        files := Security.setA
                          (Security.setA fs.files "data/settings.json"
                            ⟨dumps Val.DEFAULT_SETTINGS, mt⟩) "data/settings.json" ⟨nt, mt⟩ },
                    r', rfl, ?_, ?_, hef, hrun.symm⟩
                  · intro q hq
                    rw [lookupA_setA_ne _ "data/settings.json" q _ hq,
                      lookupA_setA_ne fs.files "data/settings.json" q _ hq]
                  · exact lookupA_setA_eq _ "data/settings.json" _

set_option maxHeartbeats 1000000 in
/-- C8: in `ensure_structure`, every templated file other than
`settings.json` is created from its template and recorded as repaired
exactly when absent, and left byte-identical and unrecorded when present.
`settings.json` is the exception the claim misses: when present it is
reloaded, and it is rewritten (and recorded as repaired) unless its text
parses to a dict that normalisation leaves unchanged — in particular a
present settings file with undecodable text is reset to the normalised
defaults. -/
theorem C8_structure_repair (loads : String → Struct.LoadResult)
    (dumps : Val.JObj → String) (fl : String → Option ℚ) (il : String → Option Int)
    (dbInit : Option String) (mt : Nat) (fs : Struct.FS)
    (r : Struct.FS × List String)
    (hrun : Struct.ensure_structure loads dumps fl il dbInit mt fs [] = .ok r) :
    (∀ pt ∈ Struct.FILE_TEMPLATES dumps, Security.baseName pt.1 ≠ "settings.json" →
      (Security.lookupA fs.files pt.1 = none →
        Security.lookupA r.1.files pt.1 = some ⟨pt.2, mt⟩ ∧ pt.1 ∈ r.2) ∧
      (∀ c, Security.lookupA fs.files pt.1 = some c →
        Security.lookupA r.1.files pt.1 = some c ∧ pt.1 ∉ r.2)) ∧
    (∀ rec d, Security.lookupA fs.files "data/settings.json" = some rec →
      loads rec.content = .obj d true →
      Val.pyEq (.jobj (Val.normalise fl il d).1) (.jobj d) = true →
      Security.lookupA r.1.files "data/settings.json" = some rec ∧
        "data/settings.json" ∉ r.2) ∧
    (∀ rec, Security.lookupA fs.files "data/settings.json" = some rec →
      loads rec.content = .decodeError →
      Security.lookupA r.1.files "data/settings.json"
          = some ⟨dumps (Val.normalise fl il .nil).1, mt⟩ ∧
        "data/settings.json" ∈ r.2) ∧
    (∀ rec d isDict, Security.lookupA fs.files "data/settings.json" = some rec →
      loads rec.content = .obj d isDict →
      (isDict && Val.pyEq (.jobj (Val.normalise fl il d).1) (.jobj d)) = false →
      Security.lookupA r.1.files "data/settings.json"
          = some ⟨dumps (Val.normalise fl il d).1, mt⟩ ∧
        "data/settings.json" ∈ r.2) := by
  obtain ⟨o, rep2, fsmid, r', hsd, hmidf, hmidsp, hef, harch⟩ :=
    ensure_structure_split loads dumps fl il dbInit mt fs r hrun
  have hkeys : (Struct.FILE_TEMPLATES_REST dumps).map Prod.fst
      = ["data/todo_items.json", "data/playlists.json", "data/archive.json",
         "data/persistent_notes.txt", "data/usage_stats.json",
         "data/selftest_report.json", "data/release_checklist.json",
         "data/color_audit.json", "data/diagnostics_report.json",
         "data/security_manifest.json"] := rfl
  have hns : ∀ pt ∈ Struct.FILE_TEMPLATES_REST dumps,
      Security.baseName pt.1 ≠ "settings.json" := by
    intro pt hpt
    have h1 : pt.1 ∈ (Struct.FILE_TEMPLATES_REST dumps).map Prod.fst :=
      List.mem_map_of_mem Prod.fst hpt
    rw [hkeys] at h1
    have hbn : ∀ q ∈ (["data/todo_items.json", "data/playlists.json",
        "data/archive.json", "data/persistent_notes.txt", "data/usage_stats.json",
        "data/selftest_report.json", "data/release_checklist.json",
        "data/color_audit.json", "data/diagnostics_report.json",
        "data/security_manifest.json"] : List String),
        Security.baseName q ≠ "settings.json" := by decide
    exact hbn pt.1 h1
  have hnd : ((Struct.FILE_TEMPLATES_REST dumps).map Prod.fst).Nodup := by
    rw [hkeys]
    decide
  obtain ⟨R, hR, hRfold, hRframe, hRmem⟩ :=
    ensureFiles_no_settings loads dumps fl il mt (Struct.FILE_TEMPLATES_REST dumps)
      hns fsmid rep2
  have hEq : R = r' := by
    rw [hR] at hef
    injection hef
  rw [← hEq] at harch
  have hSPmem : "data/settings.json"
      ∉ (Struct.FILE_TEMPLATES_REST dumps).map Prod.fst := by
    rw [hkeys]
    decide
  have hADB : "data/archive.db" ∉ (Struct.FILE_TEMPLATES_REST dumps).map Prod.fst := by
    rw [hkeys]
    decide
  have hRSP := hRframe "data/settings.json"
    (fun pt hpt he => hSPmem (List.mem_map.mpr ⟨pt, hpt, he⟩))
  have hArchSP := ensure_archive_frame dbInit mt R.1 R.2 "data/settings.json" (by decide)
  refine ⟨?_, ?_, ?_, ?_⟩
  · intro pt hpt hbase
    have hpt' : pt = ("data/settings.json", dumps Val.DEFAULT_SETTINGS)
        ∨ pt ∈ Struct.FILE_TEMPLATES_REST dumps := List.mem_cons.mp hpt
    rcases hpt' with heq | hptR
    · subst heq
      have h0 : Security.baseName "data/settings.json" = "settings.json" := by decide
      exact absurd h0 hbase
    · have hSP : pt.1 ≠ "data/settings.json" :=
        fun he => hSPmem (List.mem_map.mpr ⟨pt, hptR, he⟩)
      have hADBne : pt.1 ≠ "data/archive.db" :=
        fun he => hADB (List.mem_map.mpr ⟨pt, hptR, he⟩)
      have hmid := hmidf pt.1 hSP
      have hmem' := hRmem hnd pt hptR
      have hrep2 := esd_rep_frame loads dumps fl il _ _ o rep2 hsd pt.1 hSP
      have hrep1 : pt.1 ∉ (if (Security.lookupA fs.files "data/settings.json").isSome
          then ([] : List String) else ["data/settings.json"]) := by
        split <;> simp [hSP]
      have hArch := ensure_archive_frame dbInit mt R.1 R.2 pt.1 hADBne
      constructor
      · intro h0
        have hres := hmem'.1 (hmid.trans h0)
        rw [harch]
        exact ⟨hArch.1.trans hres.1, hArch.2.mpr hres.2⟩
      · intro c hc0
        have hres := hmem'.2 c (hmid.trans hc0)
        rw [harch]
        refine ⟨hArch.1.trans hres.1, ?_⟩
        intro hmem2
        exact hrep1 (hrep2.mp (hres.2.mp (hArch.2.mp hmem2)))
  · intro rec d hsp hload hpy
    simp only [hsp, Option.isSome_some, Option.map_some', Option.getD_some, if_true]
      at hsd hmidsp
    have hcomp : Struct.ensure_settings_defaults loads dumps fl il rec.content []
        = .ok (none, []) := by
      unfold Struct.ensure_settings_defaults
      rw [hload]
      simp [hpy]
    have hoe := hsd.symm.trans hcomp
    simp only [Except.ok.injEq, Prod.mk.injEq] at hoe
    obtain ⟨ho, hrep⟩ := hoe
    subst ho
    subst hrep
    rw [harch]
    refine ⟨hArchSP.1.trans (hRSP.1.trans hmidsp), ?_⟩
    intro hmem2
    exact absurd (hRSP.2.mp (hArchSP.2.mp hmem2)) (List.not_mem_nil _)
  · intro rec hsp hload
    simp only [hsp, Option.isSome_some, Option.map_some', Option.getD_some, if_true]
      at hsd hmidsp
    have hcomp : Struct.ensure_settings_defaults loads dumps fl il rec.content []
        = .ok (some (dumps (Val.normalise fl il .nil).1), [Struct.SETTINGS_PATH]) := by
      unfold Struct.ensure_settings_defaults
      rw [hload]
      simp
    have hoe := hsd.symm.trans hcomp
    simp only [Except.ok.injEq, Prod.mk.injEq] at hoe
    obtain ⟨ho, hrep⟩ := hoe
    subst ho
    subst hrep
    rw [harch]
    refine ⟨hArchSP.1.trans (hRSP.1.trans hmidsp), ?_⟩
    exact hArchSP.2.mpr (hRSP.2.mpr (by simp [Struct.SETTINGS_PATH]))
  · intro rec d isDict hsp hload hcond
    simp only [hsp, Option.isSome_some, Option.map_some', Option.getD_some, if_true]
      at hsd hmidsp
    have hcomp : Struct.ensure_settings_defaults loads dumps fl il rec.content []
        = .ok (some (dumps (Val.normalise fl il d).1), [Struct.SETTINGS_PATH]) := by
      unfold Struct.ensure_settings_defaults
      rw [hload]
      simp [hcond]
    have hoe := hsd.symm.trans hcomp
    simp only [Except.ok.injEq, Prod.mk.injEq] at hoe
    obtain ⟨ho, hrep⟩ := hoe
    subst ho
    subst hrep
    rw [harch]
    refine ⟨hArchSP.1.trans (hRSP.1.trans hmidsp), ?_⟩
    exact hArchSP.2.mpr (hRSP.2.mpr (by simp [Struct.SETTINGS_PATH]))

/-- Witness for C8 on a concrete directory: a present non-settings file is
kept untouched and unrecorded, an absent one is created from its template
and recorded, and a clean settings file is left alone. -/
theorem C8_structure_repair_witness :
    (Security.lookupA Wit.c8RunW.1.files "data/persistent_notes.txt"
        = some ⟨"meine Notizen", 4⟩ ∧
      "data/persistent_notes.txt" ∉ Wit.c8RunW.2) ∧
    (Security.lookupA Wit.c8RunW.1.files "data/todo_items.json"
        = some ⟨Wit.dumpsW (Val.joOf [("items", .jarr .nil)]), 7⟩ ∧
      "data/todo_items.json" ∈ Wit.c8RunW.2) ∧
    (Security.lookupA Wit.c8RunW.1.files "data/settings.json"
        = some ⟨"SETTINGS_OK", 3⟩ ∧
      "data/settings.json" ∉ Wit.c8RunW.2) ∧
    (Security.lookupA Wit.c8RunW2.1.files "data/settings.json"
        = some ⟨Wit.dumpsW (Val.normalise Wit.flW Wit.ilW
            (Val.joOf [("font_scale", .jnum (mkRat 6 5))])).1, 7⟩ ∧
      "data/settings.json" ∈ Wit.c8RunW2.2) := by
  have h := C8_structure_repair Wit.loadsW Wit.dumpsW Wit.flW Wit.ilW none 7
    Wit.c8FsW Wit.c8RunW rfl
  have h2 := C8_structure_repair Wit.loadsW Wit.dumpsW Wit.flW Wit.ilW none 7
    Wit.c8FsW2 Wit.c8RunW2 rfl
  refine ⟨?_, ?_, ?_, ?_⟩
  · exact (h.1 ("data/persistent_notes.txt", "") (by decide) (by decide)).2
      ⟨"meine Notizen", 4⟩ (by decide)
  · exact (h.1 ("data/todo_items.json", Wit.dumpsW (Val.joOf [("items", .jarr .nil)]))
      (by decide) (by decide)).1 (by decide)
  · exact h.2.1 ⟨"SETTINGS_OK", 3⟩ Val.DEFAULT_SETTINGS (by decide) rfl (by decide)
  · exact h2.2.2.2 ⟨"SETTINGS_PARTIAL", 3⟩
      (Val.joOf [("font_scale", .jnum (mkRat 6 5))]) true (by decide) rfl (by decide)

/-- Counterexample to C8 as stated: `data/settings.json` is present (with
undecodable text), yet the structure-repair step rewrites it and records
it as repaired. -/
theorem C8_structure_repair_counterexample :
    Security.lookupA Wit.c8Fs.files "data/settings.json" = some ⟨"kaputt", 3⟩ ∧
    Security.lookupA Wit.c8Run.1.files "data/settings.json"
      = some ⟨Wit.dumpsW (Val.normalise Wit.flW Wit.ilW .nil).1, 7⟩ ∧
    Security.lookupA Wit.c8Run.1.files "data/settings.json" ≠ some ⟨"kaputt", 3⟩ ∧
    "data/settings.json" ∈ Wit.c8Run.2 := by
  refine ⟨rfl, ?_, ?_, ?_⟩ <;> decide

/-! ## C7: the pristine orchestrator run -/

set_option maxRecDepth 8000 in
set_option maxHeartbeats 4000000 in
/-- C7: one pristine all-steps-succeed orchestrator run creates every
required folder and every templated required file (plus the archive
database), and persists a manifest that records a real digest for every
protected path **that the structure step provisions** — but
`Fortschritt.txt` and `todo.txt` are protected without having a template,
so the pass records the `missing` sentinel for them; and the persisted
report's pass flag reflects only the self-test outcomes (here: the
code-compilation outcome), not the security findings. -/
theorem C7_pristine_run (auditOk compileOk : Bool) :
    ∃ p, Wit.c7Run Wit.hashW auditOk compileOk = .ok p ∧
      (∀ f ∈ Struct.REQUIRED_FOLDERS, f ∈ p.1.folders) ∧
      (∀ pt ∈ Struct.FILE_TEMPLATES Wit.dumpsW,
        (Security.lookupA p.1.files pt.1).isSome = true) ∧
      (Security.lookupA p.1.files "data/archive.db").isSome = true ∧
      (∃ m, p.1.manifest = some m ∧
        (∀ q ∈ Security.SENSITIVE_FILES,
          (Security.lookupA m.files q).isSome = true) ∧
        (∀ q ∈ Security.SENSITIVE_FILES, q ≠ "Fortschritt.txt" → q ≠ "todo.txt" →
          ((Security.lookupA m.files q).map Security.Entry.sha256)
            ≠ some (some "missing")) ∧
        Security.lookupA m.files "Fortschritt.txt"
          = some ⟨some "missing", none, Wit.ckW.iso⟩ ∧
        Security.lookupA m.files "todo.txt"
          = some ⟨some "missing", none, Wit.ckW.iso⟩) ∧
      p.2 = compileOk := by
  cases auditOk <;> cases compileOk <;>
    exact ⟨_, rfl, by decide, by decide, by decide,
      ⟨_, rfl, by decide, by decide, by decide, by decide⟩, by decide⟩

set_option maxRecDepth 8000 in
set_option maxHeartbeats 4000000 in
/-- Counterexample to C7 as stated: the pristine run succeeds in every
step and persists a report with pass flag `true`, yet the persisted
manifest maps the protected paths `Fortschritt.txt` and `todo.txt` to the
`missing` sentinel rather than to a real digest — no step creates those
two files. -/
theorem C7_pristine_run_counterexample :
    Wit.c7O0.files = [] ∧
    (Wit.c7Run Wit.hashW true true).toOption.isSome = true ∧
    Wit.c7P.2 = true ∧
    Wit.c7P.1.manifest.map (fun m => Security.lookupA m.files "Fortschritt.txt")
      = some (some ⟨some "missing", none, Wit.ckW.iso⟩) ∧
    Wit.c7P.1.manifest.map (fun m => Security.lookupA m.files "todo.txt")
      = some (some ⟨some "missing", none, Wit.ckW.iso⟩) := by
  refine ⟨rfl, ?_, ?_, ?_, ?_⟩ <;> decide

end StepByStep
